import Mathlib

/-!
# Verification of the langgraph-ebay ROI / comps / hot-radar core

This file gives a shallow embedding, in Lean 4, of the pure logic of
`src/pipelines/listing/roi/graph.py`, `src/pipelines/listing/comps/graph.py`
and `src/pipelines/listing/hot/graph.py`, and proves (or refutes) the frozen
claims about that code.

Modelling conventions:
* Python floats / Decimals are modelled as `ℚ`; `Decimal.quantize(0.01,
  ROUND_HALF_UP)` becomes exact half-up (ties away from zero) rounding on `ℚ`.
* Timestamps are `ℤ` (seconds); `timedelta` constants become second counts.
* Python strings that are structurally inspected (`model_key`) are `List Char`;
  identifiers that are only compared for equality (`external_id`) are `String`.
* SQL tables are association lists of row structures; the `ON CONFLICT`
  upserts are translated into explicit find/update/append functions.
* Fallible DB steps are made explicit: a per-step failure flag models an
  exception escaping that statement, and each `with connection:` block
  commits on success / rolls back (leaves the table unchanged) on failure.
-/

set_option linter.unusedVariables false

/-! ## Money rounding (`_money` in roi/graph.py)

`_money(v)` quantizes to two decimal places with `ROUND_HALF_UP`
(ties away from zero). -/

/-- Round a rational to the nearest integer, ties away from zero
(`decimal.ROUND_HALF_UP`). -/
def round_half_up (x : ℚ) : ℤ :=
  if 0 ≤ x then ⌊x + 1 / 2⌋ else -⌊-x + 1 / 2⌋

/-- The source's `_money`: quantize to 2 decimal places, ROUND_HALF_UP. -/
def money (v : ℚ) : ℚ :=
  (round_half_up (v * 100) : ℚ) / 100

/-! ## Profit / ROI estimator (`_estimate_profit` in roi/graph.py) -/

/-- The source's `_estimate_profit`: returns `(fees, profit, roi)` exactly as the source
computes them: fees and profit are `_money`-rounded, roi is the unrounded
quotient guarded against non-positive purchase cost. -/
def estimate_profit (ask_price comps_median fee_rate outbound_ship inbound_ship : ℚ) :
    ℚ × ℚ × ℚ :=
  let fees := money (comps_median * fee_rate)
  let purchase_cost := ask_price + inbound_ship
  let profit := money (comps_median - fees - outbound_ship - purchase_cost)
  let roi := if purchase_cost ≤ 0 then 0 else profit / purchase_cost
  (fees, profit, roi)

/-- The estimator exactly as the claim's words state it: `fees` is the *raw*
product `comps_median × fee_rate` (no rounding mentioned), and only `profit`
is rounded half-up. Used to compare the claim against the source. -/
def estimate_profit_claimed (ask_price comps_median fee_rate outbound_ship inbound_ship : ℚ) :
    ℚ × ℚ × ℚ :=
  let fees := comps_median * fee_rate
  let purchase_cost := ask_price + inbound_ship
  let profit := money (comps_median - fees - outbound_ship - purchase_cost)
  let roi := if purchase_cost ≤ 0 then 0 else profit / purchase_cost
  (fees, profit, roi)

/-- The estimator with the *amended* fee clause: `fees` is the product
`comps_median × fee_rate` rounded half-up to 2 decimal places (the source
applies `_money` to the fees as well), and `profit` is computed from that
rounded fee. -/
def estimate_profit_amended_spec (ask_price comps_median fee_rate outbound_ship inbound_ship : ℚ) :
    ℚ × ℚ × ℚ :=
  let fees := money (comps_median * fee_rate)
  let purchase_cost := ask_price + inbound_ship
  let profit := money (comps_median - fees - outbound_ship - purchase_cost)
  (fees, profit, if purchase_cost ≤ 0 then 0 else profit / purchase_cost)

/-! ## Grade-aware valuation matcher
(`_split_model_key_grade`, `_get_comp_with_grade_adjustment` in roi/graph.py) -/

/-- Python strings that get structurally inspected are modelled as `List Char`. -/
abbrev Str := List Char

/-- The source's `str.strip()`: drop leading and trailing whitespace. -/
def strip (s : Str) : Str :=
  ((s.dropWhile Char.isWhitespace).reverse.dropWhile Char.isWhitespace).reverse

/-- The `GRADE_WEIGHTS` table (A=1.00, B=0.85, C=0.70, D=0.50, b=0.80). -/
def GRADE_WEIGHTS : List (Str × ℚ) :=
  [(['A'], 1), (['B'], 17 / 20), (['C'], 7 / 10), (['D'], 1 / 2), (['b'], 4 / 5)]

/-- Association-list lookup used for `GRADE_WEIGHTS[g]` / `g in GRADE_WEIGHTS`. -/
def weight_lookup : List (Str × ℚ) → Str → Option ℚ
  | [], _ => none
  | p :: ps, g => if p.1 = g then some p.2 else weight_lookup ps g

/-- The source's `GRADE_WEIGHTS.get(g)` as an option. -/
def grade_weight (g : Str) : Option ℚ :=
  weight_lookup GRADE_WEIGHTS g

/-- The source's `_split_model_key_grade`: split at the *last* underscore of the stripped
key; the suffix counts as a grade only when it is a `GRADE_WEIGHTS` key. -/
def split_model_key_grade (model_key : Str) : Str × Option Str :=
  if model_key = [] then ([], none)
  else
    let s := strip model_key
    if '_' ∈ s then
      let rev := s.reverse
      let sufRev := rev.takeWhile (fun ch => decide (ch ≠ '_'))
      let base := (rev.drop (sufRev.length + 1)).reverse
      let suffix := strip sufRev.reverse
      if (grade_weight suffix).isSome then (base, some suffix) else (s, none)
    else (s, none)

/-- A row of the `comps` table as the matcher sees it (`latest_comps_map`). -/
structure Comp where
  median_final_price : ℚ
  samples : ℤ
deriving DecidableEq

/-- The source's `comps_by_model.get(key)`: association-list lookup keyed by model_key. -/
def comps_lookup : List (Str × Comp) → Str → Option Comp
  | [], _ => none
  | p :: ps, k => if p.1 = k then some p.2 else comps_lookup ps k

/-- The fallback grade priority order `["A", "B", "C", "D", "b"]`. -/
def grade_search_order : List Str := [['A'], ['B'], ['C'], ['D'], ['b']]

/-- The fallback loop of `_get_comp_with_grade_adjustment`: first grade in
priority order whose `base_g` key differs from `model_key` and has a comp. -/
def find_alt_comp (base model_key : Str) (comps : List (Str × Comp)) :
    List Str → Option (Str × Comp)
  | [] => none
  | g :: gs =>
    let alt_key := base ++ '_' :: g
    if alt_key = model_key then find_alt_comp base model_key comps gs
    else
      match comps_lookup comps alt_key with
      | some c => some (alt_key, c)
      | none => find_alt_comp base model_key comps gs

/-- The grade rescaling factor applied at the end of the matcher: only when
both grades are truthy and in `GRADE_WEIGHTS` (the split already guarantees
the latter) is the median multiplied by `w(listing)/w(comp)`. -/
def adjust_median (listing_grade comp_grade : Option Str) (median : ℚ) : ℚ :=
  match listing_grade, comp_grade with
  | some lg, some cg =>
    match grade_weight lg, grade_weight cg with
    | some wl, some wc => median * (wl / wc)
    | _, _ => median
  | _, _ => median

/-- The source's `_get_comp_with_grade_adjustment`: exact lookup first, then the grade
fallback; a found comp with median ≤ 0 is unresolved. -/
def get_comp_with_grade_adjustment (model_key : Str) (comps : List (Str × Comp)) :
    Option (Comp × ℚ) :=
  if model_key = [] then none
  else
    let bg := split_model_key_grade model_key
    let found : Option (Str × Comp) :=
      match comps_lookup comps model_key with
      | some c => some (model_key, c)
      | none =>
        if bg.1 ≠ [] then find_alt_comp bg.1 model_key comps grade_search_order
        else none
    match found with
    | none => none
    | some kc =>
      if kc.2.median_final_price ≤ 0 then none
      else some (kc.2, adjust_median bg.2 (split_model_key_grade kc.1).2 kc.2.median_final_price)

/-! ## Alert marker engine (`_process_roi_alerts` and helpers in roi/graph.py)

Thresholds (module constants): `MIN_PROFIT_GBP = 50`, `MIN_ROI = 0.25`,
`BUCKET_STEP = 0.25`, `NEW_HIGH_ROI = 3.0`, `NEW_HIGH_PROFIT_GBP = 100`,
`ENDGAME_WINDOW = 1h`, `ENDGAME_MIN_ROI = 0.25`, `ENDGAME_MIN_PROFIT_GBP = 50`,
`SIREN_COOLDOWN = 5min`. Times are seconds (`ℤ`); timedeltas become second
counts. -/

/-- The marker kinds written to `roi_alert_markers`: `"new_high"`,
`"bucket_<n>"` (the integer is the bucket number embedded in the marker
string) and `"siren"`. -/
inductive MarkerKind where
  | new_high : MarkerKind
  | bucket (n : ℤ) : MarkerKind
  | siren : MarkerKind
deriving DecidableEq

/-- A row of `roi_alert_markers`: primary key `(external_id, marker)`,
payload `created_at`. -/
structure MarkerRow where
  external_id : String
  marker : MarkerKind
  created_at : ℤ
deriving DecidableEq

abbrev MarkerDB := List MarkerRow

/-- The source's `_marker_last_created_at`: `created_at` of the `(external_id, marker)` row. -/
def marker_last_created_at : MarkerDB → String → MarkerKind → Option ℤ
  | [], _, _ => none
  | r :: rs, eid, m =>
    if r.external_id = eid ∧ r.marker = m then some r.created_at
    else marker_last_created_at rs eid m

/-- The source's `_marker_exists`: a `(external_id, marker)` row is present. -/
def marker_exists (db : MarkerDB) (eid : String) (m : MarkerKind) : Prop :=
  marker_last_created_at db eid m ≠ none

instance (db : MarkerDB) (eid : String) (m : MarkerKind) :
    Decidable (marker_exists db eid m) := by
  unfold marker_exists; infer_instance

/-- The source's `_insert_marker`: `INSERT ... ON CONFLICT (external_id, marker) DO UPDATE
SET created_at = EXCLUDED.created_at` — refresh the timestamp if the row
exists, append otherwise. -/
def insert_marker (db : MarkerDB) (eid : String) (m : MarkerKind) (now : ℤ) : MarkerDB :=
  if marker_exists db eid m then
    db.map fun r =>
      if r.external_id = eid ∧ r.marker = m then { r with created_at := now } else r
  else db ++ [⟨eid, m, now⟩]

/-- The fields of an `Opportunity` that the marker engine reads. -/
structure OpView where
  external_id : String
  profit : ℚ
  roi : ℚ
  end_time : Option ℤ
deriving DecidableEq

/-- The source's `_humanise_time_left` returns `"expired"` exactly when it has an end time
whose remaining whole minutes (floor division by 60) are ≤ 0. -/
def time_left_expired (end_time : Option ℤ) (now : ℤ) : Prop :=
  match end_time with
  | none => False
  | some e => Int.fdiv (e - now) 60 ≤ 0

instance (e : Option ℤ) (now : ℤ) : Decidable (time_left_expired e now) := by
  unfold time_left_expired; cases e <;> infer_instance

/-- Bucket number `int(roi // BUCKET_STEP)` with `BUCKET_STEP = 0.25`. -/
def roi_bucket (roi : ℚ) : ℤ := ⌊roi / (1 / 4)⌋

/-- Step 3 of `_process_roi_alerts`: one-shot `new_high`
(`profit ≥ 100 ∧ roi ≥ 3`, guarded by `_marker_exists`). -/
def new_high_step (db : MarkerDB) (op : OpView) (now : ℤ) : MarkerDB × List MarkerKind :=
  if op.profit ≥ 100 ∧ op.roi ≥ 3 then
    if marker_exists db op.external_id .new_high then (db, [])
    else (insert_marker db op.external_id .new_high now, [.new_high])
  else (db, [])

/-- Step 4 of `_process_roi_alerts`: bucket milestone
(`profit ≥ MIN_PROFIT ∧ roi ≥ MIN_ROI`, guarded by `_marker_exists` on the
current bucket's marker). -/
def bucket_step (db : MarkerDB) (op : OpView) (now : ℤ) : MarkerDB × List MarkerKind :=
  if op.profit ≥ 50 ∧ op.roi ≥ 1 / 4 then
    if marker_exists db op.external_id (.bucket (roi_bucket op.roi)) then (db, [])
    else
      (insert_marker db op.external_id (.bucket (roi_bucket op.roi)) now,
       [.bucket (roi_bucket op.roi)])
  else (db, [])

/-- The siren cooldown gate: allowed when no prior siren row exists or the
prior one is at least `SIREN_COOLDOWN = 300 s` old. -/
def siren_allowed (last_siren : Option ℤ) (now : ℤ) : Prop :=
  match last_siren with
  | none => True
  | some last => now - last ≥ 300

instance (last_siren : Option ℤ) (now : ℤ) : Decidable (siren_allowed last_siren now) := by
  unfold siren_allowed; cases last_siren <;> infer_instance

/-- Step 5 of `_process_roi_alerts`: cooldown-gated siren for listings ending
within `ENDGAME_WINDOW = 3600 s`, at relaxed thresholds
(`ENDGAME_MIN_PROFIT = 50`, `ENDGAME_MIN_ROI = 0.25`). -/
def siren_step (db : MarkerDB) (op : OpView) (now : ℤ) : MarkerDB × List MarkerKind :=
  match op.end_time with
  | none => (db, [])
  | some e =>
    if e - now ≤ 3600 ∧ op.profit ≥ 50 ∧ op.roi ≥ 1 / 4 then
      if siren_allowed (marker_last_created_at db op.external_id .siren) now then
        (insert_marker db op.external_id .siren now, [.siren])
      else (db, [])
    else (db, [])

/-- One loop iteration of `_process_roi_alerts` for one opportunity: the
roi-snapshot insert touches no marker state and is omitted; ended and
expired listings are skipped; then the three marker tiers run in order. -/
def process_op (db : MarkerDB) (op : OpView) (now : ℤ) : MarkerDB × List MarkerKind :=
  if h : ∃ e, op.end_time = some e ∧ e ≤ now then (db, [])
  else if time_left_expired op.end_time now then (db, [])
  else
    let s1 := new_high_step db op now
    let s2 := bucket_step s1.1 op now
    let s3 := siren_step s2.1 op now
    (s3.1, s1.2 ++ s2.2 ++ s3.2)

/-- A run of marker-engine evaluations of a single listing: each tick is a
`(now, op)` pair, i.e. one `_process_roi_alerts` call seeing that listing.
Returns the final marker table and all notifications sent, in order. -/
def run_ticks (db : MarkerDB) : List (ℤ × OpView) → MarkerDB × List MarkerKind
  | [] => (db, [])
  | t :: ts =>
    let s := process_op db t.2 t.1
    let r := run_ticks s.1 ts
    (r.1, s.2 ++ r.2)

/-- Number of notifications of one marker kind in a notification list. -/
def count_kind (k : MarkerKind) : List MarkerKind → ℕ
  | [] => 0
  | m :: ms => (if m = k then 1 else 0) + count_kind k ms

/-! ## The `alerts` table and `record_alert`

`record_alert` is defined twice in the source — in roi/graph.py and in
hot/graph.py — with the identical upsert statement
(`INSERT ... ON CONFLICT (external_id) DO UPDATE SET score, max_bid,
updated_at; RETURNING id, (xmax = 0) AS inserted`); one embedding serves
both. `external_id` is `UNIQUE`, `id` is the serial primary key, and
`(xmax = 0)` reports whether the statement inserted (vs updated). -/

/-- A row of the `alerts` table (see `create_alerts` in hot/graph.py). -/
structure AlertRow where
  id : ℕ
  external_id : String
  score : ℚ
  max_bid : ℚ
  created_at : ℤ
  updated_at : ℤ
  sent_at : Option ℤ
deriving DecidableEq

abbrev AlertsDB := List AlertRow

/-- Row lookup by the unique `external_id` key. -/
def alert_lookup : AlertsDB → String → Option AlertRow
  | [], _ => none
  | r :: rs, eid => if r.external_id = eid then some r else alert_lookup rs eid

/-- The source's `record_alert`: upsert by `external_id`; on conflict only `score`,
`max_bid` and `updated_at` are overwritten. Returns the new table,
`created_now` (`xmax = 0`) and the row id. `next_id` models the serial
sequence. -/
def record_alert (db : AlertsDB) (next_id : ℕ) (eid : String) (score max_bid : ℚ)
    (now : ℤ) : AlertsDB × Bool × Option ℕ :=
  match alert_lookup db eid with
  | some r =>
    (db.map fun q =>
       if q.external_id = eid then
         { q with score := score, max_bid := max_bid, updated_at := now }
       else q,
     false, some r.id)
  | none => (db ++ [⟨next_id, eid, score, max_bid, now, now, none⟩], true, some next_id)

/-! ## Opportunities, shortlist persistence and the digest node
(roi/graph.py) -/

/-- The `Opportunity` dataclass (title/url omitted: they only feed email
text). -/
structure Opportunity where
  source : String
  external_id : String
  model_key : Option Str
  comps_samples : ℤ
  comps_median : ℚ
  purchase_cost : ℚ
  outbound_ship : ℚ
  fees : ℚ
  profit : ℚ
  roi : ℚ
  end_time : Option ℤ
  time_left_s : Option ℤ
deriving DecidableEq

/-- The source's `_is_investible_model_key`: non-falsy, non-blank, and not
case-insensitively `"unknown"`. -/
def is_investible_model_key (mk : Option Str) : Prop :=
  match mk with
  | none => False
  | some s =>
    s ≠ [] ∧ strip s ≠ [] ∧ (strip s).map Char.toLower ≠ ['u', 'n', 'k', 'n', 'o', 'w', 'n']

instance (mk : Option Str) : Decidable (is_investible_model_key mk) := by
  unfold is_investible_model_key; cases mk <;> infer_instance

/-- The source's `_source_cfg`: the `PER_SOURCE` override dict is empty in the source, so
every source resolves to the module defaults
`(MIN_PROFIT_GBP, MIN_ROI, OUTBOUND_SHIP_DEFAULT_GBP, FEE_RATE)
 = (50, 0.25, 7, 0.13)`. -/
def source_cfg (source : String) : ℚ × ℚ × ℚ × ℚ :=
  (50, 1 / 4, 7, 13 / 100)

/-- Build one `Opportunity` from a resolved listing, exactly as both
`_build_all_opps_for_roi` and `_shortlist` construct it
(`INBOUND_SHIP_DEFAULT_GBP = 0`). -/
def make_opportunity (source : String) (external_id : String) (model_key : Option Str)
    (price_current : ℚ) (end_time : Option ℤ) (time_left_s : Option ℤ)
    (samples : ℤ) (comps_median : ℚ) : Opportunity :=
  let cfg := source_cfg source
  let fpr := estimate_profit price_current comps_median cfg.2.2.2 cfg.2.2.1 0
  { source := source
    external_id := external_id
    model_key := model_key
    comps_samples := samples
    comps_median := money comps_median
    purchase_cost := money (price_current + 0)
    outbound_ship := money cfg.2.2.1
    fees := money fpr.1
    profit := money fpr.2.1
    roi := fpr.2.2
    end_time := end_time
    time_left_s := time_left_s }

/-- A listing row as the roi pipeline reads (and writes back) it. -/
structure ListingRow where
  external_id : String
  source : String
  model_key : Option Str
  price_current : ℚ
  end_time : Option ℤ
  time_left_s : Option ℤ
  roi_estimate : Option ℚ
  max_bid : Option ℚ
deriving DecidableEq

/-- The source's `_build_all_opps_for_roi`: every active listing with an investible
model_key and a resolved comp having `samples ≥ 3` and positive adjusted
median becomes an opportunity — no profit/roi thresholds here. -/
def build_all_opps_for_roi : List ListingRow → List (Str × Comp) → List Opportunity
  | [], _ => []
  | li :: rest, comps =>
    let tail := build_all_opps_for_roi rest comps
    if is_investible_model_key li.model_key then
      match li.model_key with
      | none => tail
      | some mk =>
        match get_comp_with_grade_adjustment mk comps with
        | none => tail
        | some cm =>
          if cm.1.samples < 3 ∨ cm.2 ≤ 0 then tail
          else
            make_opportunity li.source li.external_id li.model_key li.price_current
              li.end_time li.time_left_s cm.1.samples cm.2 :: tail
    else tail

/-- The source's `_update_roi_estimates` applied to one `(roi, max_bid, external_id)`
update row: `UPDATE auction_listings SET roi_estimate, max_bid WHERE
external_id = ...`. -/
def apply_roi_update (listings : List ListingRow) (roi_v max_bid_v : ℚ)
    (eid : String) : List ListingRow :=
  listings.map fun l =>
    if l.external_id = eid then
      { l with roi_estimate := some roi_v, max_bid := some max_bid_v }
    else l

/-- The source's `_update_roi_estimates`: the repository has no `engine.core.scoring.snipe`
module (the import fails with `ModuleNotFoundError`), so the executed branch
is the fallback `max_bid = _money(0.8 * comps_median)`. -/
def update_roi_estimates (listings : List ListingRow) (opps : List Opportunity) :
    List ListingRow :=
  opps.foldl
    (fun ls op => apply_roi_update ls op.roi (money (op.comps_median * (8 / 10))) op.external_id)
    listings

/-- Nodes `compute_all_for_roi` then `persist_roi_estimates` composed: the
whole "persist browsable estimates" path of one tick. -/
def persist_roi_estimates (listings : List ListingRow) (comps : List (Str × Comp)) :
    List ListingRow :=
  update_roi_estimates listings (build_all_opps_for_roi listings comps)

/-- Row lookup in `auction_listings` by the unique `external_id`. -/
def listing_lookup : List ListingRow → String → Option ListingRow
  | [], _ => none
  | l :: ls, eid => if l.external_id = eid then some l else listing_lookup ls eid

/-- The effect of one `(roi, max_bid, external_id)` update row on one
listing row, as folded by `_update_roi_estimates`. -/
def roi_update_fold (row : ListingRow) (op : Opportunity) : ListingRow :=
  if row.external_id = op.external_id then
    { row with roi_estimate := some op.roi,
               max_bid := some (money (op.comps_median * (8 / 10))) }
  else row

/-! ## Digest batcher (`_node_record_alerts_and_email`, `_send_email_digest`)

Flags in the source: `RECORD_ALERTS = True`, `SEND_EMAIL_DIGEST = True`,
`MAX_EMAIL_ITEMS = 20`, `EMAIL_COOLDOWN = 30 min = 1800 s`. The email
transport is modelled as succeeding (a transport failure is caught and only
skips the watermark update). -/

/-- The digest cooldown gate of `_node_record_alerts_and_email`: send when no
watermark exists or it is at least `EMAIL_COOLDOWN = 1800 s` old. -/
def email_cooldown_ok (last_sent : Option ℤ) (now : ℤ) : Prop :=
  match last_sent with
  | none => True
  | some ls => now - ls ≥ 1800

instance (last_sent : Option ℤ) (now : ℤ) : Decidable (email_cooldown_ok last_sent now) := by
  unfold email_cooldown_ok; cases last_sent <;> infer_instance

/-- The filter the node applies to newly created alerts before emailing:
`op.end_time is not None and op.end_time < now` — i.e. end time already in
the past. -/
def end_time_past (op : Opportunity) (now : ℤ) : Prop :=
  match op.end_time with
  | none => False
  | some e => e < now

instance (op : Opportunity) (now : ℤ) : Decidable (end_time_past op now) := by
  unfold end_time_past; cases op.end_time <;> infer_instance

/-- The per-opportunity upsert loop of `_node_record_alerts_and_email`:
each shortlist survivor is upserted with `score = profit` and
`max_bid = _money(comps_median - fees - outbound_ship)`; the opportunities
whose upsert inserted (`created_now`) are collected in order. Returns
`(alerts table, next serial id, newly created opportunities)`. -/
def record_alerts_loop (db : AlertsDB) (next_id : ℕ) (now : ℤ) :
    List Opportunity → AlertsDB × ℕ × List Opportunity
  | [] => (db, next_id, [])
  | op :: ops =>
    let r := record_alert db next_id op.external_id op.profit
      (money (op.comps_median - op.fees - op.outbound_ship)) now
    let nid := if r.2.1 then next_id + 1 else next_id
    let rest := record_alerts_loop r.1 nid now ops
    (rest.1, rest.2.1, (if r.2.1 then [op] else []) ++ rest.2.2)

/-- What one run of the digest node did. `candidates` is the pre-filter
`created_now` set; `emailed` is the list of items put in the email body
(`none` when no email was sent); `last_sent_at` is the resulting
`alert_state` watermark. -/
structure DigestOutcome where
  alerts : AlertsDB
  candidates : List Opportunity
  emailed : Option (List Opportunity)
  last_sent_at : Option ℤ
deriving DecidableEq

/-- The source's `_node_record_alerts_and_email`: upsert every shortlist survivor; filter
the newly created ones to those whose `end_time` is already past; if any
remain and the cooldown has elapsed (or no watermark exists), email the
first `MAX_EMAIL_ITEMS = 20` of them and advance the watermark. -/
def node_record_alerts_and_email (opps : List Opportunity) (db : AlertsDB)
    (next_id : ℕ) (last_sent : Option ℤ) (now : ℤ) : DigestOutcome :=
  if opps = [] then ⟨db, [], none, last_sent⟩
  else
    let loop := record_alerts_loop db next_id now opps
    let newly := loop.2.2
    if newly = [] then ⟨loop.1, newly, none, last_sent⟩
    else
      let past := newly.filter fun op => decide (end_time_past op now)
      if past = [] then ⟨loop.1, newly, none, last_sent⟩
      else if email_cooldown_ok last_sent now then
        ⟨loop.1, newly, some (past.take 20), some now⟩
      else ⟨loop.1, newly, none, last_sent⟩

/-! ## Hot-radar scorer (`snipe_score` in hot/graph.py) -/

/-- The `Listing` dataclass of hot/graph.py. -/
structure HotListing where
  external_id : String
  price_current : Option ℚ
  bids_count : Option ℤ
  time_left_s : Option ℤ
  model_key : Option Str
deriving DecidableEq

/-- The `Comp` dataclass of hot/graph.py. -/
structure HotComp where
  median_final_price : ℚ
  samples : ℤ
deriving DecidableEq

/-- The source's `snipe_score`, translated clause by clause: early 0 when there is no
price or no positive margin; then
`clamp(0.6·margin_score + 0.3·urgency − 0.5·bids_penalty, 0, 1)`.
(`comp is None` cannot arise here: the caller always passes a constructed
`Comp`; `bids_count or 0` sends both `None` and `0` to `0`.) -/
def snipe_score (l : HotListing) (c : HotComp) : ℚ :=
  match l.price_current with
  | none => 0
  | some p =>
    let margin := c.median_final_price - p
    if margin ≤ 0 then 0
    else
      let margin_score := min (margin / max c.median_final_price (1 / 1000000)) 1
      let urgency : ℚ :=
        match l.time_left_s with
        | none => 0
        | some t =>
          if (t : ℚ) / 3600 ≤ 1 then 1
          else if (t : ℚ) / 3600 ≤ 4 then 3 / 5
          else if (t : ℚ) / 3600 ≤ 24 then 1 / 5
          else 0
      let bids : ℚ := match l.bids_count with | none => 0 | some b => (b : ℚ)
      let bids_penalty := min (bids / 20) 1
      let score := 6 / 10 * margin_score + 3 / 10 * urgency - 5 / 10 * bids_penalty
      max 0 (min score 1)

/-- The hot-radar score formula exactly as the claim's words state it:
`0.6×margin_score + 0.3×urgency − 0.5×bids_penalty` clamped to `[0,1]`,
with `margin_score = min(1,(m−p)/m)` when `p < m` else `0` — no early
return. Used to compare the claim against the source. -/
def snipe_score_claimed (p m : ℚ) (bids t : ℤ) : ℚ :=
  let margin_score := if p < m then min 1 ((m - p) / m) else 0
  let urgency : ℚ :=
    if t ≤ 3600 then 1 else if t ≤ 14400 then 3 / 5 else if t ≤ 86400 then 1 / 5 else 0
  let bids_penalty := min 1 ((bids : ℚ) / 20)
  max 0 (min (6 / 10 * margin_score + 3 / 10 * urgency - 5 / 10 * bids_penalty) 1)

/-! ## Comps recompute pipeline (comps/graph.py)

Each helper runs its SQL inside its own `with connection:` block, i.e. its
own transaction: success commits before the next step starts, an exception
rolls back only that step's statement. `run()` wraps the graph in
`try/except`, so an escaping failure only aborts the remaining steps.
Failures of individual steps are modelled by explicit flags. -/

/-- A row of the `comps` table. -/
structure CompsSnapRow where
  model_key : Str
  median_final_price : ℚ
  mean_final_price : ℚ
  samples : ℤ
  computed_at : ℤ
deriving DecidableEq

abbrev CompsDB := List CompsSnapRow

/-- A sold/ended listing as `_compute_daily_comps` aggregates it. -/
structure EndedListing where
  model_key : Option Str
  status : String
  final_price : Option ℚ
  price_current : Option ℚ
  end_time : Option ℤ
deriving DecidableEq

/-- The source's `COALESCE(final_price, price_current)`. -/
def realized_price (l : EndedListing) : Option ℚ :=
  match l.final_price with
  | some p => some p
  | none => l.price_current

/-- The `WHERE` clause of `_compute_daily_comps`: sold/ended status, non-null
realized price, end time inside the trailing window, non-null non-"unknown"
model_key. -/
def comps_row_eligible (l : EndedListing) (now : ℤ) (days : ℤ) : Prop :=
  (l.status = "sold" ∨ l.status = "ended") ∧
  realized_price l ≠ none ∧
  (∃ e, l.end_time = some e ∧ e ≥ now - days * 86400) ∧
  (∃ mk, l.model_key = some mk ∧ mk.map Char.toLower ≠ ['u', 'n', 'k', 'n', 'o', 'w', 'n'])

instance (l : EndedListing) (now days : ℤ) : Decidable (comps_row_eligible l now days) := by
  unfold comps_row_eligible
  cases l.end_time <;> cases l.model_key <;>
    simp only [Option.some.injEq, exists_eq_left', reduceCtorEq, exists_false, false_and,
      and_false] <;> infer_instance

/-- Sorted insertion, used to model `ORDER BY` inside the percentile. -/
def insert_sorted (x : ℚ) : List ℚ → List ℚ
  | [] => [x]
  | y :: ys => if x ≤ y then x :: y :: ys else y :: insert_sorted x ys

def sort_q (l : List ℚ) : List ℚ := l.foldr insert_sorted []

/-- The source's `PERCENTILE_CONT(0.5) WITHIN GROUP (ORDER BY v)`: the continuous median —
middle element for odd counts, average of the two middle elements for even
counts. -/
def percentile_cont_half (l : List ℚ) : ℚ :=
  let s := sort_q l
  let n := s.length
  if n = 0 then 0
  else if n % 2 = 1 then s.getD (n / 2) 0
  else (s.getD (n / 2 - 1) 0 + s.getD (n / 2) 0) / 2

/-- Values contributing to one model_key's group. -/
def group_values (src : List EndedListing) (now days : ℤ) (k : Str) : List ℚ :=
  src.filterMap fun l =>
    if comps_row_eligible l now days ∧ l.model_key = some k then realized_price l
    else none

/-- The distinct eligible model_keys, in first-appearance order. -/
def distinct_keys (src : List EndedListing) (now days : ℤ) : List Str :=
  (src.filterMap fun l =>
      if comps_row_eligible l now days then l.model_key else none).foldl
    (fun acc k => if k ∈ acc then acc else acc ++ [k]) []

/-- The source's `_compute_daily_comps`: the rows the `INSERT ... SELECT ... GROUP BY
model_key` appends, all stamped `computed_at = now`. -/
def compute_daily_comps (src : List EndedListing) (now days : ℤ) : CompsDB :=
  (distinct_keys src now days).map fun k =>
    let vs := group_values src now days k
    ⟨k, percentile_cont_half vs, vs.sum / vs.length, vs.length, now⟩

/-- The source's `_prune_old_comps`: keep the newest `keep` rows per model_key
(`ROW_NUMBER() OVER (PARTITION BY model_key ORDER BY computed_at DESC)`,
ties broken by position). -/
def prune_old_comps (keep : ℕ) (db : CompsDB) : CompsDB :=
  (db.enum.filter fun ir =>
      decide (((db.enum.filter fun jq =>
          decide (jq.2.model_key = ir.2.model_key ∧
            (jq.2.computed_at > ir.2.computed_at ∨
              (jq.2.computed_at = ir.2.computed_at ∧ jq.1 < ir.1)))).length < keep))).map
    (·.2)

/-- The source's `_get_last_run`: `SELECT MAX(computed_at) FROM comps`. -/
def get_last_run : CompsDB → Option ℤ
  | [] => none
  | r :: rs =>
    match get_last_run rs with
    | none => some r.computed_at
    | some m => some (max r.computed_at m)

/-- Which steps of one recompute raise an exception. -/
structure StepFailures where
  truncate_fails : Bool
  compute_fails : Bool
  prune_fails : Bool
deriving DecidableEq

/-- The `decide` node: run when forced, when the table is empty ("never
run" ⇒ infinite age) or when the last compute is at least
`COMPS_MIN_INTERVAL_HOURS = 6` old. -/
def should_run_comps (force : Bool) (db : CompsDB) (now : ℤ) : Prop :=
  force = true ∨
    match get_last_run db with
    | none => True
    | some lr => now - lr ≥ 6 * 3600

instance (force : Bool) (db : CompsDB) (now : ℤ) : Decidable (should_run_comps force db now) := by
  unfold should_run_comps; cases get_last_run db <;> infer_instance

/-- One `run(force)` of the comps pipeline, tracking the committed state of
the `comps` table. Every step commits on its own (`with connection:` per
helper): a truncate failure leaves the table untouched, but a compute
failure strikes *after* the truncate has already committed; a prune failure
is caught (best-effort) and keeps the computed rows. The matview refresh
touches a different object and is omitted. -/
def run_comps_recompute (force : Bool) (fail : StepFailures) (db : CompsDB)
    (src : List EndedListing) (now days : ℤ) : CompsDB :=
  if should_run_comps force db now then
    if fail.truncate_fails then db
    else
      if fail.compute_fails then []
      else
        let db2 := compute_daily_comps src now days
        if fail.prune_fails then db2 else prune_old_comps 60 db2
  else db

/-! # Claims -/

/-! ## C3 — profit/ROI estimator -/

/-- C3, counterexample: at `ask = 100`, `comps_median = 100.10`,
`fee_rate = 0.13`, `outbound = 7`, `inbound = 0`, the source's fees are
`_money(100.10 × 0.13) = 13.01`, not the claim's unrounded
`100.10 × 0.13 = 13.013`, so the claimed formula set disagrees with the
code. -/
theorem c3_counterexample :
    estimate_profit 100 (1001 / 10) (13 / 100) 7 0
        ≠ estimate_profit_claimed 100 (1001 / 10) (13 / 100) 7 0 ∧
      (estimate_profit 100 (1001 / 10) (13 / 100) 7 0).1 = 1301 / 100 ∧
      (1001 / 10 : ℚ) * (13 / 100) = 13013 / 1000 := by
  refine ⟨?_, ?_, by norm_num⟩ <;>
    norm_num [estimate_profit, estimate_profit_claimed, money, round_half_up]

/-- C3, amended: for every input the estimator computes
`fees = money(comps_median × fee_rate)` (rounded half-up to 2 dp),
`purchase_cost = ask + inbound`, `profit = money(median − fees − outbound −
purchase_cost)` and `roi = profit / purchase_cost` except `roi = 0` when
`purchase_cost ≤ 0` (total, never raising); the claim's concrete example is
unaffected by the amendment: ask=100, median=200, fee=0.13, out=7, in=0
gives fees=26.00, purchase_cost=100.00, profit=67.00, roi=0.67. -/
theorem c3_estimator_amended :
    (∀ ask_price comps_median fee_rate outbound_ship inbound_ship : ℚ,
        estimate_profit ask_price comps_median fee_rate outbound_ship inbound_ship =
          estimate_profit_amended_spec ask_price comps_median fee_rate outbound_ship
            inbound_ship) ∧
      estimate_profit 100 200 (13 / 100) 7 0 = (26, 67, 67 / 100) ∧
      100 + (0 : ℚ) = 100 := by
  refine ⟨fun a m f o i => rfl, ?_, by norm_num⟩
  norm_num [estimate_profit, money, round_half_up]

/-! ## C9 — hot-radar score -/

/-- C9, counterexample: for price 100 against a median of 50 with 0 bids and
30 minutes left, the source's `snipe_score` returns `0` (the `margin ≤ 0`
early return), while the claimed clamped formula yields
`0.3 × urgency = 0.3`. -/
theorem c9_counterexample :
    snipe_score ⟨"x", some 100, some 0, some 1800, none⟩ ⟨50, 5⟩ = 0 ∧
      snipe_score_claimed 100 50 0 1800 = 3 / 10 ∧
      snipe_score ⟨"x", some 100, some 0, some 1800, none⟩ ⟨50, 5⟩ ≠
        snipe_score_claimed 100 50 0 1800 := by
  refine ⟨?_, ?_, ?_⟩ <;> norm_num [snipe_score, snipe_score_claimed]

/-- C9, amended: when `price ≥ comp_median` the score is `0` outright
(regardless of urgency and bids); when `price < comp_median` (and the median
is at least the `1e-6` guard of the source's denominator) the score equals
the claimed clamped formula
`clamp(0.6×min(1,(m−p)/m) + 0.3×urgency − 0.5×min(1,bids/20), 0, 1)` with
the claimed urgency tiers. -/
theorem c9_amended (eid : String) (mk : Option Str) (p m : ℚ) (bids t samples : ℤ) :
    (m ≤ p → snipe_score ⟨eid, some p, some bids, some t, mk⟩ ⟨m, samples⟩ = 0) ∧
      (p < m → 1 / 1000000 ≤ m →
        snipe_score ⟨eid, some p, some bids, some t, mk⟩ ⟨m, samples⟩ =
          snipe_score_claimed p m bids t) := by
  constructor
  · intro h
    simp only [snipe_score]
    rw [if_pos (by linarith)]
  · intro hlt hm
    have hmax : max m (1 / 1000000 : ℚ) = m := max_eq_left hm
    have h1 : ((t : ℚ) / 3600 ≤ 1) = (t ≤ 3600) := by
      rw [div_le_one (by norm_num : (0:ℚ) < 3600)]
      norm_cast
    have h2 : ((t : ℚ) / 3600 ≤ 4) = (t ≤ 14400) := by
      rw [div_le_iff₀ (by norm_num : (0:ℚ) < 3600)]
      norm_num
      norm_cast
    have h3 : ((t : ℚ) / 3600 ≤ 24) = (t ≤ 86400) := by
      rw [div_le_iff₀ (by norm_num : (0:ℚ) < 3600)]
      norm_num
      norm_cast
    simp only [snipe_score, snipe_score_claimed, hmax, h1, h2, h3,
      if_neg (not_le.mpr (by linarith : p < m)), if_pos hlt, min_comm]
    rw [if_neg (not_le.mpr (by linarith : (0:ℚ) < m - p))]

/-- C9, witness for the amended theorem: price 10 against median 100, 0
bids, 30 minutes left — both the source's score and the claimed formula
evaluate to `0.84`. -/
theorem c9_amended_witness :
    (10 : ℚ) < 100 ∧ (1 : ℚ) / 1000000 ≤ 100 ∧
      snipe_score ⟨"w", some 10, some 0, some 1800, none⟩ ⟨100, 3⟩ =
        snipe_score_claimed 10 100 0 1800 ∧
      snipe_score_claimed 10 100 0 1800 = 21 / 25 := by
  refine ⟨by norm_num, by norm_num, ?_, by norm_num [snipe_score_claimed]⟩
  exact (c9_amended "w" none 10 100 0 1800 3).2 (by norm_num) (by norm_num)

/-! ## C5 — comps recompute abort behaviour -/

/-- C5, counterexample: starting from a non-empty previous snapshot, a
recompute whose aggregation step fails *after* the truncate step leaves the
`comps` table empty — the previous snapshot's rows are gone, because
`_truncate_comps` commits in its own `with connection:` transaction before
`_compute_daily_comps` starts. -/
theorem c5_counterexample :
    run_comps_recompute true ⟨false, true, false⟩ [⟨['k'], 50, 50, 3, 0⟩] [] 100000 30
        = [] ∧
      ([] : CompsDB) ≠ [⟨['k'], 50, 50, 3, 0⟩] := by
  constructor
  · simp [run_comps_recompute, should_run_comps]
  · simp

/-- C5, amended: a failure of the truncate step itself leaves the previous
snapshot authoritative, but any failure *after* the truncate has committed
(the claim's aggregation-after-truncate scenario) aborts the recompute with
the comps table left empty — the previous snapshot is not retained. On a
fully successful forced recompute the table holds exactly the freshly
aggregated (and pruned) rows. -/
theorem c5_amended (db : CompsDB) (src : List EndedListing) (now days : ℤ)
    (b2 b3 : Bool) :
    run_comps_recompute true ⟨true, b2, b3⟩ db src now days = db ∧
      run_comps_recompute true ⟨false, true, b3⟩ db src now days = [] ∧
      run_comps_recompute true ⟨false, false, false⟩ db src now days =
        prune_old_comps 60 (compute_daily_comps src now days) := by
  refine ⟨?_, ?_, ?_⟩ <;> simp [run_comps_recompute, should_run_comps]

/-! ## C6 — alert upsert field and `created_now` semantics -/

/-- Helper: looking up after the conflict-update rewrite returns the first
matching row with only `score`, `max_bid`, `updated_at` overwritten. -/
theorem alert_lookup_map_update (db : AlertsDB) (eid : String) (s m : ℚ) (now : ℤ)
    (r : AlertRow) (h : alert_lookup db eid = some r) :
    alert_lookup
        (db.map fun q =>
          if q.external_id = eid then
            { q with score := s, max_bid := m, updated_at := now }
          else q) eid
      = some { r with score := s, max_bid := m, updated_at := now } := by
  induction db with
  | nil => simp [alert_lookup] at h
  | cons q rs ih =>
    by_cases hq : q.external_id = eid
    · simp only [alert_lookup, if_pos hq, Option.some.injEq] at h
      simp [alert_lookup, hq, ← h]
    · simp only [alert_lookup, if_neg hq] at h
      simp [alert_lookup, hq, ih h]

/-- C6: upserting an `external_id` not yet in the `alerts` table appends a
fresh row with `created_at = updated_at = now`, `sent_at = NULL`, and
reports `created_now = true`; upserting an `external_id` already present
overwrites exactly `score`, `max_bid`, `updated_at` of that row — keeping
`created_at` and `sent_at` — reports `created_now = false`, and leaves every
other row in the table unchanged. Hence `created_now` is true on the first
upsert for an id and false on every subsequent one. -/
theorem c6_alert_upsert :
    (∀ (db : AlertsDB) (next_id : ℕ) (eid : String) (s m : ℚ) (now : ℤ),
        alert_lookup db eid = none →
          record_alert db next_id eid s m now =
            (db ++ [⟨next_id, eid, s, m, now, now, none⟩], true, some next_id)) ∧
      (∀ (db : AlertsDB) (next_id : ℕ) (eid : String) (s m : ℚ) (now : ℤ) (r : AlertRow),
        alert_lookup db eid = some r →
          (record_alert db next_id eid s m now).2.1 = false ∧
            alert_lookup (record_alert db next_id eid s m now).1 eid =
              some { r with score := s, max_bid := m, updated_at := now } ∧
            ∀ q ∈ db, q.external_id ≠ eid → q ∈ (record_alert db next_id eid s m now).1) := by
  constructor
  · intro db next_id eid s m now h
    simp [record_alert, h]
  · intro db next_id eid s m now r h
    refine ⟨by simp [record_alert, h], ?_, ?_⟩
    · simp only [record_alert, h]
      exact alert_lookup_map_update db eid s m now r h
    · intro q hq hne
      simp only [record_alert, h]
      have : (fun q : AlertRow =>
          if q.external_id = eid then
            { q with score := s, max_bid := m, updated_at := now }
          else q) q = q := by simp [hne]
      exact this ▸ List.mem_map_of_mem _ hq

/-- C6, witness: a concrete first upsert inserts (`created_now = true`) and
a concrete second upsert with different score/max_bid updates only
`score`/`max_bid`/`updated_at` (`created_now = false`). -/
theorem c6_alert_upsert_witness :
    record_alert [] 1 "e1" 5 6 10 = ([⟨1, "e1", 5, 6, 10, 10, none⟩], true, some 1) ∧
      (record_alert [⟨1, "e1", 5, 6, 10, 10, none⟩] 2 "e1" 7 8 40).2.1 = false ∧
      alert_lookup (record_alert [⟨1, "e1", 5, 6, 10, 10, none⟩] 2 "e1" 7 8 40).1 "e1" =
        some ⟨1, "e1", 7, 8, 10, 40, none⟩ := by
  refine ⟨c6_alert_upsert.1 [] 1 "e1" 5 6 10 rfl, ?_, ?_⟩
  · exact (c6_alert_upsert.2 [⟨1, "e1", 5, 6, 10, 10, none⟩] 2 "e1" 7 8 40
      ⟨1, "e1", 5, 6, 10, 10, none⟩ (by simp [alert_lookup])).1
  · exact (c6_alert_upsert.2 [⟨1, "e1", 5, 6, 10, 10, none⟩] 2 "e1" 7 8 40
      ⟨1, "e1", 5, 6, 10, 10, none⟩ (by simp [alert_lookup])).2.1

/-! ## Marker-engine lemmas shared by C1, C2 and C10 -/

theorem count_kind_append (k : MarkerKind) (a b : List MarkerKind) :
    count_kind k (a ++ b) = count_kind k a + count_kind k b := by
  induction a with
  | nil => simp [count_kind]
  | cons x xs ih => simp [count_kind, ih]; ring

/-- The conflict-update rewrite of `_insert_marker` keeps every other
`(external_id, marker)` cell unchanged. -/
theorem marker_last_created_at_map_update_other (db : MarkerDB) (eid : String)
    (m : MarkerKind) (now : ℤ) (eid' : String) (m' : MarkerKind)
    (h : ¬(eid' = eid ∧ m' = m)) :
    marker_last_created_at
        (db.map fun r =>
          if r.external_id = eid ∧ r.marker = m then { r with created_at := now } else r)
        eid' m'
      = marker_last_created_at db eid' m' := by
  induction db with
  | nil => simp [marker_last_created_at]
  | cons r rs ih =>
    by_cases hr : r.external_id = eid' ∧ r.marker = m'
    · have hrm : ¬(r.external_id = eid ∧ r.marker = m) := by
        rintro ⟨h1, h2⟩
        exact h ⟨hr.1 ▸ h1, hr.2 ▸ h2⟩
      simp only [List.map_cons, if_neg hrm, marker_last_created_at, if_pos hr]
    · have : (if r.external_id = eid ∧ r.marker = m then { r with created_at := now } else r).external_id = r.external_id ∧
          (if r.external_id = eid ∧ r.marker = m then { r with created_at := now } else r).marker = r.marker := by
        by_cases hq : r.external_id = eid ∧ r.marker = m <;> simp [hq]
      simp only [List.map_cons, marker_last_created_at, this.1, this.2, if_neg hr]
      exact ih

/-- The conflict-update rewrite of `_insert_marker` sets the matching cell's
timestamp to `now` (when the cell is occupied). -/
theorem marker_last_created_at_map_update_self (db : MarkerDB) (eid : String)
    (m : MarkerKind) (now : ℤ) :
    marker_last_created_at
        (db.map fun r =>
          if r.external_id = eid ∧ r.marker = m then { r with created_at := now } else r)
        eid m
      = (marker_last_created_at db eid m).map fun _ => now := by
  induction db with
  | nil => simp [marker_last_created_at]
  | cons r rs ih =>
    by_cases hr : r.external_id = eid ∧ r.marker = m
    · simp [marker_last_created_at, hr]
    · simp only [List.map_cons, if_neg hr, marker_last_created_at, ih]

theorem marker_last_created_at_append_other (db : MarkerDB) (eid : String)
    (m : MarkerKind) (now : ℤ) (eid' : String) (m' : MarkerKind)
    (h : ¬(eid' = eid ∧ m' = m)) :
    marker_last_created_at (db ++ [⟨eid, m, now⟩]) eid' m'
      = marker_last_created_at db eid' m' := by
  induction db with
  | nil =>
    simp only [List.nil_append, marker_last_created_at]
    rw [if_neg]
    rintro ⟨h1, h2⟩
    exact h ⟨h1.symm, h2.symm⟩
  | cons r rs ih =>
    by_cases hr : r.external_id = eid' ∧ r.marker = m'
    · simp [marker_last_created_at, hr]
    · simp only [List.cons_append, marker_last_created_at, if_neg hr]
      exact ih

theorem marker_last_created_at_append_self (db : MarkerDB) (eid : String)
    (m : MarkerKind) (now : ℤ) (h : marker_last_created_at db eid m = none) :
    marker_last_created_at (db ++ [⟨eid, m, now⟩]) eid m = some now := by
  induction db with
  | nil => simp [marker_last_created_at]
  | cons r rs ih =>
    by_cases hr : r.external_id = eid ∧ r.marker = m
    · simp [marker_last_created_at, hr] at h
    · simp only [marker_last_created_at, if_neg hr] at h
      simp only [List.cons_append, marker_last_created_at, if_neg hr]
      exact ih h

/-- The source's `_insert_marker` touches no other `(external_id, marker)` cell. -/
theorem insert_marker_preserves (db : MarkerDB) (eid : String) (m : MarkerKind)
    (now : ℤ) (eid' : String) (m' : MarkerKind) (h : ¬(eid' = eid ∧ m' = m)) :
    marker_last_created_at (insert_marker db eid m now) eid' m'
      = marker_last_created_at db eid' m' := by
  unfold insert_marker
  by_cases he : marker_exists db eid m
  · rw [if_pos he]
    exact marker_last_created_at_map_update_other db eid m now eid' m' h
  · rw [if_neg he]
    exact marker_last_created_at_append_other db eid m now eid' m' h

/-- After `_insert_marker`, the targeted cell's timestamp is `now`. -/
theorem insert_marker_self (db : MarkerDB) (eid : String) (m : MarkerKind) (now : ℤ) :
    marker_last_created_at (insert_marker db eid m now) eid m = some now := by
  unfold insert_marker
  by_cases he : marker_exists db eid m
  · rw [if_pos he, marker_last_created_at_map_update_self]
    unfold marker_exists at he
    cases hc : marker_last_created_at db eid m with
    | none => exact absurd hc he
    | some x => simp
  · rw [if_neg he]
    unfold marker_exists at he
    exact marker_last_created_at_append_self db eid m now (not_not.mp he)

/-- The new-high step never touches a non-`new_high` marker cell. -/
theorem new_high_step_preserves (db : MarkerDB) (op : OpView) (now : ℤ)
    (eid' : String) (m' : MarkerKind) (h : m' ≠ .new_high) :
    marker_last_created_at (new_high_step db op now).1 eid' m'
      = marker_last_created_at db eid' m' := by
  unfold new_high_step
  split
  · split
    · rfl
    · exact insert_marker_preserves db op.external_id .new_high now eid' m'
        fun hc => h hc.2
  · rfl

/-- The new-high step emits no non-`new_high` notification. -/
theorem new_high_step_count (db : MarkerDB) (op : OpView) (now : ℤ) (k : MarkerKind)
    (h : k ≠ .new_high) : count_kind k (new_high_step db op now).2 = 0 := by
  unfold new_high_step
  split
  · split
    · rfl
    · simp [count_kind, Ne.symm h]
  · rfl

/-- The bucket step never touches a `new_high` or `siren` cell (nor any
bucket cell other than the one it inserts, see the accounting lemma). -/
theorem bucket_step_preserves (db : MarkerDB) (op : OpView) (now : ℤ)
    (eid' : String) (m' : MarkerKind) (h : ∀ n : ℤ, m' ≠ .bucket n) :
    marker_last_created_at (bucket_step db op now).1 eid' m'
      = marker_last_created_at db eid' m' := by
  unfold bucket_step
  split
  · split
    · rfl
    · exact insert_marker_preserves db op.external_id _ now eid' m'
        fun hc => h _ hc.2
  · rfl

theorem bucket_step_count (db : MarkerDB) (op : OpView) (now : ℤ) (k : MarkerKind)
    (h : ∀ n : ℤ, k ≠ .bucket n) : count_kind k (bucket_step db op now).2 = 0 := by
  unfold bucket_step
  split
  · split
    · rfl
    · simp [count_kind, Ne.symm (h (roi_bucket op.roi))]
  · rfl

/-- The siren step never touches a non-`siren` cell. -/
theorem siren_step_preserves (db : MarkerDB) (op : OpView) (now : ℤ)
    (eid' : String) (m' : MarkerKind) (h : m' ≠ .siren) :
    marker_last_created_at (siren_step db op now).1 eid' m'
      = marker_last_created_at db eid' m' := by
  unfold siren_step
  split
  · rfl
  · split
    · split
      · exact insert_marker_preserves db op.external_id .siren now eid' m'
          fun hc => h hc.2
      · rfl
    · rfl

theorem siren_step_count (db : MarkerDB) (op : OpView) (now : ℤ) (k : MarkerKind)
    (h : k ≠ .siren) : count_kind k (siren_step db op now).2 = 0 := by
  unfold siren_step
  split
  · rfl
  · split
    · split
      · simp [count_kind, Ne.symm h]
      · rfl
    · rfl

/-- A roi whose bucket is positive clears the 0.25 minimum. -/
theorem roi_ge_of_bucket_pos (r : ℚ) (n : ℤ) (hb : roi_bucket r = n) (hn : 1 ≤ n) :
    r ≥ 1 / 4 := by
  have h1 : (1 : ℤ) ≤ ⌊r / (1 / 4)⌋ := by rw [roi_bucket] at hb; omega
  have h2 : (1 : ℚ) ≤ r / (1 / 4) := by exact_mod_cast Int.le_floor.mp h1
  have h3 : r / (1 / 4 : ℚ) = 4 * r := by ring
  linarith [h3 ▸ h2]

/-- Conversely, a roi that clears `MIN_ROI = 0.25` sits in a positive bucket. -/
theorem bucket_pos_of_roi_ge (r : ℚ) (h : r ≥ 1 / 4) : 1 ≤ roi_bucket r := by
  unfold roi_bucket
  apply Int.le_floor.mpr
  have h3 : r / (1 / 4 : ℚ) = 4 * r := by ring
  rw [h3]
  push_cast
  linarith

/-- Exact accounting of the bucket step for one bucket number `n ≥ 1`, for an
opportunity clearing the profit minimum: an existing marker is never
re-notified, a missing marker is notified exactly when the current roi's
bucket is `n`, and no other bucket's marker state changes. -/
theorem bucket_step_bucket_n (db : MarkerDB) (op : OpView) (now : ℤ) (n : ℤ)
    (hp : op.profit ≥ 50) (hn : 1 ≤ n) :
    (marker_exists db op.external_id (.bucket n) →
       count_kind (.bucket n) (bucket_step db op now).2 = 0 ∧
       marker_exists (bucket_step db op now).1 op.external_id (.bucket n)) ∧
    (¬ marker_exists db op.external_id (.bucket n) → roi_bucket op.roi = n →
       count_kind (.bucket n) (bucket_step db op now).2 = 1 ∧
       marker_exists (bucket_step db op now).1 op.external_id (.bucket n)) ∧
    (¬ marker_exists db op.external_id (.bucket n) → roi_bucket op.roi ≠ n →
       count_kind (.bucket n) (bucket_step db op now).2 = 0 ∧
       ¬ marker_exists (bucket_step db op now).1 op.external_id (.bucket n)) := by
  unfold bucket_step
  by_cases hg : op.profit ≥ 50 ∧ op.roi ≥ 1 / 4
  · rw [if_pos hg]
    by_cases hex : marker_exists db op.external_id (.bucket (roi_bucket op.roi))
    · rw [if_pos hex]
      refine ⟨fun h => ⟨rfl, h⟩, fun hne hb => ?_, fun hne hb => ⟨rfl, hne⟩⟩
      rw [hb] at hex
      exact absurd hex hne
    · rw [if_neg hex]
      refine ⟨fun h => ?_, fun hne hb => ?_, fun hne hb => ?_⟩
      · have hnb : roi_bucket op.roi ≠ n := fun hc => hex (hc ▸ h)
        constructor
        · simp [count_kind, hnb, Ne.symm hnb]
        · unfold marker_exists at h ⊢
          rw [insert_marker_preserves db _ _ now _ _ (by simp [Ne.symm hnb])]
          exact h
      · rw [hb]
        constructor
        · simp [count_kind]
        · unfold marker_exists
          show marker_last_created_at (insert_marker db op.external_id (.bucket n) now)
              op.external_id (.bucket n) ≠ none
          rw [insert_marker_self]
          simp
      · constructor
        · simp [count_kind, hb, Ne.symm hb]
        · unfold marker_exists at hne ⊢
          rw [insert_marker_preserves db _ _ now _ _ (by simp [Ne.symm hb])]
          exact hne
  · rw [if_neg hg]
    exact ⟨fun h => ⟨rfl, h⟩,
      fun hne hb => absurd ⟨hp, roi_ge_of_bucket_pos _ _ hb hn⟩ hg,
      fun hne hb => ⟨rfl, hne⟩⟩

/-- For a live listing (`end_time` at least a minute away), one
`_process_roi_alerts` iteration reaches the three marker tiers in order. -/
theorem process_op_live (db : MarkerDB) (op : OpView) (now e : ℤ)
    (he : op.end_time = some e) (hx : e - now ≥ 60) :
    process_op db op now =
      ((siren_step (bucket_step (new_high_step db op now).1 op now).1 op now).1,
       (new_high_step db op now).2 ++
         (bucket_step (new_high_step db op now).1 op now).2 ++
         (siren_step (bucket_step (new_high_step db op now).1 op now).1 op now).2) := by
  have hne : ¬ ∃ e', op.end_time = some e' ∧ e' ≤ now := by
    rintro ⟨e', he', hle⟩
    rw [he] at he'
    have : e = e' := by injection he'
    omega
  have hnexp : ¬ time_left_expired op.end_time now := by
    rw [he]
    show ¬ (Int.fdiv (e - now) 60 ≤ 0)
    rw [Int.fdiv_eq_ediv _ (by omega)]
    omega
  unfold process_op
  rw [dif_neg hne, if_neg hnexp]


/-- Bucket-`n` accounting (`n ≥ 1`) across one whole `_process_roi_alerts`
iteration on a live, profit-qualifying opportunity: the new-high and siren
tiers neither emit nor disturb bucket markers, so the bucket step's
accounting carries over. -/
theorem process_op_bucket (db : MarkerDB) (op : OpView) (now e n : ℤ)
    (he : op.end_time = some e) (hx : e - now ≥ 60) (hp : op.profit ≥ 50) (hn : 1 ≤ n) :
    (marker_exists db op.external_id (.bucket n) →
       count_kind (.bucket n) (process_op db op now).2 = 0 ∧
       marker_exists (process_op db op now).1 op.external_id (.bucket n)) ∧
    (¬ marker_exists db op.external_id (.bucket n) → roi_bucket op.roi = n →
       count_kind (.bucket n) (process_op db op now).2 = 1 ∧
       marker_exists (process_op db op now).1 op.external_id (.bucket n)) ∧
    (¬ marker_exists db op.external_id (.bucket n) → roi_bucket op.roi ≠ n →
       count_kind (.bucket n) (process_op db op now).2 = 0 ∧
       ¬ marker_exists (process_op db op now).1 op.external_id (.bucket n)) := by
  rw [process_op_live db op now e he hx]
  have hpre1 :
      marker_last_created_at (new_high_step db op now).1 op.external_id (.bucket n)
        = marker_last_created_at db op.external_id (.bucket n) :=
    new_high_step_preserves db op now _ _ (by simp)
  have hc1 : count_kind (.bucket n) (new_high_step db op now).2 = 0 :=
    new_high_step_count db op now _ (by simp)
  have hc3 : ∀ db', count_kind (.bucket n) (siren_step db' op now).2 = 0 :=
    fun db' => siren_step_count db' op now _ (by simp)
  have hpre3 : ∀ db',
      marker_last_created_at (siren_step db' op now).1 op.external_id (.bucket n)
        = marker_last_created_at db' op.external_id (.bucket n) :=
    fun db' => siren_step_preserves db' op now _ _ (by simp)
  have hB := bucket_step_bucket_n (new_high_step db op now).1 op now n hp hn
  have hex1 :
      marker_exists (new_high_step db op now).1 op.external_id (.bucket n)
        ↔ marker_exists db op.external_id (.bucket n) := by
    unfold marker_exists
    rw [hpre1]
  have hex3 : ∀ db',
      marker_exists (siren_step db' op now).1 op.external_id (.bucket n)
        ↔ marker_exists db' op.external_id (.bucket n) := by
    intro db'
    unfold marker_exists
    rw [hpre3]
  refine ⟨fun h => ?_, fun hne hb => ?_, fun hne hb => ?_⟩
  · have := hB.1 (hex1.mpr h)
    simp only [count_kind_append, hc1, hc3, this.1, hex3]
    exact ⟨trivial, this.2⟩
  · have := hB.2.1 (fun hc => hne (hex1.mp hc)) hb
    simp only [count_kind_append, hc1, hc3, this.1, hex3]
    exact ⟨trivial, this.2⟩
  · have := hB.2.2 (fun hc => hne (hex1.mp hc)) hb
    simp only [count_kind_append, hc1, hc3, this.1, hex3]
    exact ⟨trivial, this.2⟩

/-- The marker engine never emits a `bucket_n` notification for `n ≤ 0`: the
gate `roi ≥ MIN_ROI = 0.25` forces the current bucket to be ≥ 1. -/
theorem process_op_bucket_nonpos (db : MarkerDB) (op : OpView) (now n : ℤ)
    (hn : n ≤ 0) : count_kind (.bucket n) (process_op db op now).2 = 0 := by
  unfold process_op
  split
  · rfl
  · split
    · rfl
    · have h1 : count_kind (.bucket n) (new_high_step db op now).2 = 0 :=
        new_high_step_count db op now _ (by simp)
      have h3 : ∀ db', count_kind (.bucket n) (siren_step db' op now).2 = 0 :=
        fun db' => siren_step_count db' op now _ (by simp)
      have h2 : ∀ db', count_kind (.bucket n) (bucket_step db' op now).2 = 0 := by
        intro db'
        unfold bucket_step
        split
        · split
          · rfl
          · have hb1 : 1 ≤ roi_bucket op.roi := by
              apply bucket_pos_of_roi_ge
              rename_i hg _
              exact hg.2
            have : roi_bucket op.roi ≠ n := by omega
            simp [count_kind, this, Ne.symm this]
        · rfl
      simp only [count_kind_append, h1, h2, h3]

theorem run_ticks_cons (db : MarkerDB) (t : ℤ × OpView) (ts : List (ℤ × OpView)) :
    run_ticks db (t :: ts) =
      ((run_ticks (process_op db t.2 t.1).1 ts).1,
       (process_op db t.2 t.1).2 ++ (run_ticks (process_op db t.2 t.1).1 ts).2) := rfl

/-- Bucket-`n` accounting (`n ≥ 1`) over a whole run of the marker engine on
one listing, all ticks live and profit-qualifying: an initially existing
marker is never re-notified; a missing one is notified exactly once when
some tick's roi sits in bucket `n`, and never otherwise. -/
theorem run_ticks_bucket (eid : String) (n : ℤ) (hn : 1 ≤ n) :
    ∀ (ticks : List (ℤ × OpView)) (db : MarkerDB),
      (∀ p ∈ ticks, p.2.external_id = eid ∧ p.2.profit ≥ 50 ∧
        ∃ e, p.2.end_time = some e ∧ e - p.1 ≥ 60) →
      (marker_exists db eid (.bucket n) →
         count_kind (.bucket n) (run_ticks db ticks).2 = 0 ∧
         marker_exists (run_ticks db ticks).1 eid (.bucket n)) ∧
      (¬ marker_exists db eid (.bucket n) →
         ((∃ p ∈ ticks, roi_bucket p.2.roi = n) →
            count_kind (.bucket n) (run_ticks db ticks).2 = 1 ∧
            marker_exists (run_ticks db ticks).1 eid (.bucket n)) ∧
         ((∀ p ∈ ticks, roi_bucket p.2.roi ≠ n) →
            count_kind (.bucket n) (run_ticks db ticks).2 = 0 ∧
            ¬ marker_exists (run_ticks db ticks).1 eid (.bucket n))) := by
  intro ticks
  induction ticks with
  | nil =>
    intro db hgood
    exact ⟨fun h => ⟨rfl, h⟩,
      fun hne => ⟨fun hex => absurd hex (by simp), fun _ => ⟨rfl, hne⟩⟩⟩
  | cons t ts ih =>
    intro db hgood
    obtain ⟨heid, hp, e, he, hx⟩ := hgood t (List.mem_cons_self t ts)
    have hgts : ∀ p ∈ ts, p.2.external_id = eid ∧ p.2.profit ≥ 50 ∧
        ∃ e, p.2.end_time = some e ∧ e - p.1 ≥ 60 :=
      fun p hp' => hgood p (List.mem_cons_of_mem t hp')
    have PB := process_op_bucket db t.2 t.1 e n he hx hp hn
    rw [heid] at PB
    rw [run_ticks_cons]
    simp only [count_kind_append]
    refine ⟨fun hex => ?_, fun hne => ⟨fun hsome => ?_, fun hall => ?_⟩⟩
    · obtain ⟨hc0, hex1⟩ := PB.1 hex
      obtain ⟨hcr, hexr⟩ := (ih _ hgts).1 hex1
      exact ⟨by omega, hexr⟩
    · by_cases hbt : roi_bucket t.2.roi = n
      · obtain ⟨hc1, hex1⟩ := PB.2.1 hne hbt
        obtain ⟨hcr, hexr⟩ := (ih _ hgts).1 hex1
        exact ⟨by omega, hexr⟩
      · have hts : ∃ p ∈ ts, roi_bucket p.2.roi = n := by
          obtain ⟨p, hpmem, hpb⟩ := hsome
          rcases List.mem_cons.mp hpmem with hpt | hpts
          · exact absurd (hpt ▸ hpb) hbt
          · exact ⟨p, hpts, hpb⟩
        obtain ⟨hc0, hex1⟩ := PB.2.2 hne hbt
        obtain ⟨hcr, hexr⟩ := ((ih _ hgts).2 hex1).1 hts
        exact ⟨by omega, hexr⟩
    · have hbt := hall t (List.mem_cons_self t ts)
      obtain ⟨hc0, hex1⟩ := PB.2.2 hne hbt
      obtain ⟨hcr, hexr⟩ :=
        ((ih _ hgts).2 hex1).2 fun p hp' => hall p (List.mem_cons_of_mem t hp')
      exact ⟨by omega, hexr⟩

/-- Over any run, no `bucket_n` notification with `n ≤ 0` is ever emitted. -/
theorem run_ticks_bucket_nonpos (n : ℤ) (hn : n ≤ 0) :
    ∀ (ticks : List (ℤ × OpView)) (db : MarkerDB),
      count_kind (.bucket n) (run_ticks db ticks).2 = 0 := by
  intro ticks
  induction ticks with
  | nil => intro db; rfl
  | cons t ts ih =>
    intro db
    rw [run_ticks_cons]
    simp only [count_kind_append]
    rw [process_op_bucket_nonpos db t.2 t.1 n hn, ih]

/-! ## C1 — bucket milestones across a run -/

/-- C1, counterexample: a single listing whose roi rises strictly through
buckets 0, 1, 2 (roi 0.10 → 0.30 → 0.60, profit £60 throughout, ending far
in the future) never gets a `bucket_0` marker/notification — the gate
`roi ≥ MIN_ROI = 0.25` makes bucket 0 unreachable — contradicting the
claim that each of `bucket_0 .. bucket_m` is created exactly once. -/
theorem c1_counterexample :
    count_kind (.bucket 0)
        (run_ticks []
          [(0, ⟨"x", 60, 1 / 10, some 100000⟩),
           (100, ⟨"x", 60, 3 / 10, some 100000⟩),
           (200, ⟨"x", 60, 3 / 5, some 100000⟩)]).2 ≠ 1 := by
  have h0 :
      count_kind (.bucket 0)
        (run_ticks []
          [(0, ⟨"x", 60, 1 / 10, some 100000⟩),
           (100, ⟨"x", 60, 3 / 10, some 100000⟩),
           (200, ⟨"x", 60, 3 / 5, some 100000⟩)]).2 = 0 := by
    norm_num [run_ticks, process_op, new_high_step, bucket_step, siren_step,
      time_left_expired, roi_bucket, marker_exists, marker_last_created_at,
      insert_marker, count_kind, Int.fdiv]
  omega

/-- C1, amended: for a single listing whose roi strictly rises across ticks
passing through every bucket `0..m` — each tick clearing the shortlist
profit minimum and still live — the engine creates each of
`bucket_1 .. bucket_m` exactly once over the whole run, never re-creates a
bucket marker already present, and never creates `bucket_0` (the
`roi ≥ MIN_ROI = 0.25` gate puts every qualifying roi in bucket ≥ 1). -/
theorem c1_amended (db : MarkerDB) (eid : String) (ticks : List (ℤ × OpView)) (m : ℤ)
    (hdb : ∀ n : ℤ, ¬ marker_exists db eid (.bucket n))
    (hgood : ∀ p ∈ ticks, p.2.external_id = eid ∧ p.2.profit ≥ 50 ∧
      ∃ e, p.2.end_time = some e ∧ e - p.1 ≥ 60)
    (hrise : List.Chain' (· < ·) (ticks.map fun p => p.2.roi))
    (hcover : ∀ n : ℤ, 0 ≤ n → n ≤ m → ∃ p ∈ ticks, roi_bucket p.2.roi = n) :
    (∀ n : ℤ, 1 ≤ n → n ≤ m →
       count_kind (.bucket n) (run_ticks db ticks).2 = 1) ∧
    count_kind (.bucket 0) (run_ticks db ticks).2 = 0 := by
  constructor
  · intro n h1 h2
    exact (((run_ticks_bucket eid n h1 ticks db hgood).2 (hdb n)).1
      (hcover n (by omega) h2)).1
  · exact run_ticks_bucket_nonpos 0 le_rfl ticks db

/-- C1, witness for the amended theorem: the three-tick run through buckets
0, 1, 2 yields `bucket_1` and `bucket_2` exactly once each and `bucket_0`
never. -/
theorem c1_amended_witness :
    count_kind (.bucket 1)
        (run_ticks []
          [(0, ⟨"x", 60, 1 / 10, some 100000⟩),
           (100, ⟨"x", 60, 3 / 10, some 100000⟩),
           (200, ⟨"x", 60, 3 / 5, some 100000⟩)]).2 = 1 ∧
      count_kind (.bucket 2)
        (run_ticks []
          [(0, ⟨"x", 60, 1 / 10, some 100000⟩),
           (100, ⟨"x", 60, 3 / 10, some 100000⟩),
           (200, ⟨"x", 60, 3 / 5, some 100000⟩)]).2 = 1 ∧
      count_kind (.bucket 0)
        (run_ticks []
          [(0, ⟨"x", 60, 1 / 10, some 100000⟩),
           (100, ⟨"x", 60, 3 / 10, some 100000⟩),
           (200, ⟨"x", 60, 3 / 5, some 100000⟩)]).2 = 0 := by
  have hmain := c1_amended [] "x"
    [(0, ⟨"x", 60, 1 / 10, some 100000⟩),
     (100, ⟨"x", 60, 3 / 10, some 100000⟩),
     (200, ⟨"x", 60, 3 / 5, some 100000⟩)] 2
    (fun n => by simp [marker_exists, marker_last_created_at])
    (by
      intro p hp
      simp only [List.mem_cons, List.not_mem_nil, or_false] at hp
      rcases hp with h | h | h <;> subst h <;>
        exact ⟨rfl, by norm_num, _, rfl, by norm_num⟩)
    (by simp [List.chain'_cons]; norm_num)
    (by
      intro n h0 h2
      interval_cases n
      · exact ⟨(0, ⟨"x", 60, 1 / 10, some 100000⟩), by simp, by norm_num [roi_bucket]⟩
      · exact ⟨(100, ⟨"x", 60, 3 / 10, some 100000⟩), by simp, by norm_num [roi_bucket]⟩
      · exact ⟨(200, ⟨"x", 60, 3 / 5, some 100000⟩), by simp, by norm_num [roi_bucket]⟩)
  exact ⟨hmain.1 1 (by omega) (by omega), hmain.1 2 (by omega) (by omega), hmain.2⟩

/-! ## C10 — per-tick bucket uniqueness and no backfill -/

/-- C10: (i) in a single marker-engine evaluation of one listing, no
`bucket_n` notification is emitted for any `n` other than the current
`⌊roi / 0.25⌋` — hence at most one bucket marker is created per tick; and
(ii) over any run, a `bucket_n` notification implies some tick's roi
actually sat in bucket `n`, so buckets skipped by a roi jump are never
backfilled. -/
theorem c10_bucket_per_tick :
    (∀ (db : MarkerDB) (op : OpView) (now n : ℤ), n ≠ roi_bucket op.roi →
       count_kind (.bucket n) (process_op db op now).2 = 0) ∧
    (∀ (db : MarkerDB) (ticks : List (ℤ × OpView)) (n : ℤ),
       count_kind (.bucket n) (run_ticks db ticks).2 ≠ 0 →
       ∃ p ∈ ticks, roi_bucket p.2.roi = n) := by
  have part1 : ∀ (db : MarkerDB) (op : OpView) (now n : ℤ), n ≠ roi_bucket op.roi →
      count_kind (.bucket n) (process_op db op now).2 = 0 := by
    intro db op now n h
    unfold process_op
    split
    · rfl
    · split
      · rfl
      · have h1 : count_kind (.bucket n) (new_high_step db op now).2 = 0 :=
          new_high_step_count db op now _ (by simp)
        have h3 : ∀ db', count_kind (.bucket n) (siren_step db' op now).2 = 0 :=
          fun db' => siren_step_count db' op now _ (by simp)
        have h2 : ∀ db', count_kind (.bucket n) (bucket_step db' op now).2 = 0 := by
          intro db'
          unfold bucket_step
          split
          · split
            · rfl
            · simp [count_kind, h, Ne.symm h]
          · rfl
        simp only [count_kind_append, h1, h2, h3]
  refine ⟨part1, fun db ticks => ?_⟩
  induction ticks generalizing db with
  | nil => intro n h; exact absurd rfl h
  | cons t ts ih =>
    intro n h
    rw [run_ticks_cons] at h
    simp only [count_kind_append] at h
    by_cases hc : count_kind (.bucket n) (process_op db t.2 t.1).2 = 0
    · rw [hc] at h
      obtain ⟨p, hmem, hb⟩ := ih (process_op db t.2 t.1).1 n (by omega)
      exact ⟨p, List.mem_cons_of_mem t hmem, hb⟩
    · have : roi_bucket t.2.roi = n := by
        by_contra hne
        exact hc (part1 db t.2 t.1 n fun hc' => hne hc'.symm)
      exact ⟨t, List.mem_cons_self t ts, this⟩

/-- C10, witness: in the tick with roi 0.5 (bucket 2), no `bucket_5`
notification is emitted; and the three-tick run's `bucket_2` notification
is justified by a tick whose roi sits in bucket 2. -/
theorem c10_bucket_per_tick_witness :
    (5 : ℤ) ≠ roi_bucket (1 / 2) ∧
      count_kind (.bucket 5) (process_op [] ⟨"x", 60, 1 / 2, some 100000⟩ 0).2 = 0 ∧
      (∃ p ∈ [((0 : ℤ), (⟨"x", 60, 1 / 2, some 100000⟩ : OpView))],
        roi_bucket p.2.roi = 2) := by
  have h5 : (5 : ℤ) ≠ roi_bucket (1 / 2) := by norm_num [roi_bucket]
  refine ⟨h5, c10_bucket_per_tick.1 [] ⟨"x", 60, 1 / 2, some 100000⟩ 0 5 h5, ?_⟩
  apply c10_bucket_per_tick.2 []
  norm_num [run_ticks, process_op, new_high_step, bucket_step, siren_step,
    time_left_expired, roi_bucket, marker_exists, marker_last_created_at,
    insert_marker, count_kind, Int.fdiv]

/-- Siren accounting across one `_process_roi_alerts` iteration on a live,
endgame-qualifying opportunity (`end − now ≤ 1h`, relaxed thresholds met):
if the cooldown gate allows, exactly one siren notification goes out and the
siren marker's timestamp becomes `now`; otherwise nothing is sent and the
timestamp is untouched. -/
theorem process_op_siren (db : MarkerDB) (op : OpView) (now e : ℤ)
    (he : op.end_time = some e) (hx : e - now ≥ 60) (hw : e - now ≤ 3600)
    (hp : op.profit ≥ 50) (hr : op.roi ≥ 1 / 4) :
    (siren_allowed (marker_last_created_at db op.external_id .siren) now →
       count_kind .siren (process_op db op now).2 = 1 ∧
       marker_last_created_at (process_op db op now).1 op.external_id .siren = some now) ∧
    (¬ siren_allowed (marker_last_created_at db op.external_id .siren) now →
       count_kind .siren (process_op db op now).2 = 0 ∧
       marker_last_created_at (process_op db op now).1 op.external_id .siren =
         marker_last_created_at db op.external_id .siren) := by
  rw [process_op_live db op now e he hx]
  have hpre1 :
      marker_last_created_at (new_high_step db op now).1 op.external_id .siren
        = marker_last_created_at db op.external_id .siren :=
    new_high_step_preserves db op now _ _ (by simp)
  have hpre2 :
      marker_last_created_at
          (bucket_step (new_high_step db op now).1 op now).1 op.external_id .siren
        = marker_last_created_at (new_high_step db op now).1 op.external_id .siren :=
    bucket_step_preserves (new_high_step db op now).1 op now _ _ (by simp)
  have hdb2 := hpre2.trans hpre1
  have hc1 : count_kind .siren (new_high_step db op now).2 = 0 :=
    new_high_step_count db op now _ (by simp)
  have hc2 : count_kind .siren (bucket_step (new_high_step db op now).1 op now).2 = 0 :=
    bucket_step_count (new_high_step db op now).1 op now _ (by simp)
  constructor
  · intro hal
    have hs : siren_step (bucket_step (new_high_step db op now).1 op now).1 op now =
        (insert_marker (bucket_step (new_high_step db op now).1 op now).1
          op.external_id .siren now, [.siren]) := by
      unfold siren_step
      rw [he]
      dsimp only
      rw [hdb2]
      rw [if_pos (show e - now ≤ 3600 ∧ op.profit ≥ 50 ∧ op.roi ≥ 1 / 4 from ⟨hw, hp, hr⟩)]
      rw [if_pos hal]
    rw [hs]
    simp only [count_kind_append, hc1, hc2]
    refine ⟨by simp [count_kind], ?_⟩
    exact insert_marker_self _ op.external_id .siren now
  · intro hal
    have hs : siren_step (bucket_step (new_high_step db op now).1 op now).1 op now =
        ((bucket_step (new_high_step db op now).1 op now).1, []) := by
      unfold siren_step
      rw [he]
      dsimp only
      rw [hdb2]
      rw [if_pos (show e - now ≤ 3600 ∧ op.profit ≥ 50 ∧ op.roi ≥ 1 / 4 from ⟨hw, hp, hr⟩)]
      rw [if_neg hal]
    rw [hs]
    simp only [count_kind_append, hc1, hc2]
    exact ⟨rfl, hdb2⟩

/-! ## C2 — siren cooldown -/

/-- C2, counterexample: a listing ending at `e = 3600` with profit £60 and
roi 50 % — meeting the siren thresholds and inside the 1-hour endgame
window at both evaluations — evaluated at `t = 0` and again at `t = 3590`
(separation 3590 s, far beyond the 5-minute cooldown) produces only ONE
siren notification, not the two the claim requires: with 10 seconds left
the second evaluation is skipped as "expired" by `_humanise_time_left`. -/
theorem c2_counterexample :
    ((3600 : ℤ) - 0 ≤ 3600 ∧ (3600 : ℤ) - 3590 ≤ 3600 ∧ (0 : ℤ) < 3600 - 3590 ∧
      (3590 : ℤ) - 0 ≥ 300) ∧
      count_kind .siren
        (run_ticks []
          [(0, ⟨"s2", 60, 1 / 2, some 3600⟩), (3590, ⟨"s2", 60, 1 / 2, some 3600⟩)]).2 = 1 := by
  constructor
  · omega
  · have S1 := process_op_siren [] ⟨"s2", 60, 1 / 2, some 3600⟩ 0 3600 rfl
      (by omega) (by omega) (by norm_num) (by norm_num)
    have hal : siren_allowed
        (marker_last_created_at []
          (OpView.mk "s2" 60 (1 / 2) (some 3600)).external_id .siren) 0 := by
      simp [marker_last_created_at, siren_allowed]
    have hc1 := (S1.1 hal).1
    have hskip : ∀ db : MarkerDB,
        process_op db ⟨"s2", 60, 1 / 2, some 3600⟩ 3590 = (db, []) := by
      intro db
      unfold process_op
      rw [dif_neg, if_pos (by decide)]
      rintro ⟨e', he', hle⟩
      have : (3600 : ℤ) = e' := by injection he'
      omega
    show count_kind .siren
        ((process_op [] (⟨"s2", 60, 1 / 2, some 3600⟩ : OpView) 0).2 ++
          ((process_op (process_op [] (⟨"s2", 60, 1 / 2, some 3600⟩ : OpView) 0).1
              (⟨"s2", 60, 1 / 2, some 3600⟩ : OpView) 3590).2 ++ [])) = 1
    rw [hskip]
    rw [count_kind_append, hc1]
    rfl

/-- C2, amended: for a still-qualifying listing ending within the 1-hour
window on both evaluations — each evaluation at least one whole minute
before the end time, so the listing is not skipped as expired — starting
with no prior siren marker: two evaluations separated by strictly less than
the 5-minute cooldown send exactly one siren (the second is suppressed and
the marker keeps the first timestamp), while two evaluations separated by
at least the cooldown send two, the marker's timestamp being refreshed to
the second evaluation's time. -/
theorem c2_siren_cooldown (db : MarkerDB) (eid : String) (p1 r1 p2 r2 : ℚ)
    (e t1 t2 : ℤ)
    (hdb : marker_last_created_at db eid .siren = none)
    (hp1 : p1 ≥ 50) (hr1 : r1 ≥ 1 / 4) (hp2 : p2 ≥ 50) (hr2 : r2 ≥ 1 / 4)
    (hw1 : e - t1 ≤ 3600) (hx1 : e - t1 ≥ 60)
    (hw2 : e - t2 ≤ 3600) (hx2 : e - t2 ≥ 60) :
    (t2 - t1 < 300 →
       count_kind .siren
           (run_ticks db [(t1, ⟨eid, p1, r1, some e⟩), (t2, ⟨eid, p2, r2, some e⟩)]).2 = 1 ∧
       marker_last_created_at
           (run_ticks db [(t1, ⟨eid, p1, r1, some e⟩), (t2, ⟨eid, p2, r2, some e⟩)]).1
           eid .siren = some t1) ∧
    (t2 - t1 ≥ 300 →
       count_kind .siren
           (run_ticks db [(t1, ⟨eid, p1, r1, some e⟩), (t2, ⟨eid, p2, r2, some e⟩)]).2 = 2 ∧
       marker_last_created_at
           (run_ticks db [(t1, ⟨eid, p1, r1, some e⟩), (t2, ⟨eid, p2, r2, some e⟩)]).1
           eid .siren = some t2) := by
  have S1 := process_op_siren db ⟨eid, p1, r1, some e⟩ t1 e rfl hx1 hw1 hp1 hr1
  have hal1 : siren_allowed
      (marker_last_created_at db (OpView.mk eid p1 r1 (some e)).external_id .siren) t1 := by
    show siren_allowed (marker_last_created_at db eid .siren) t1
    rw [hdb]
    simp [siren_allowed]
  obtain ⟨hc1, hm1⟩ := S1.1 hal1
  have hm1' : marker_last_created_at
      (process_op db ⟨eid, p1, r1, some e⟩ t1).1 eid .siren = some t1 := hm1
  have S2 := process_op_siren (process_op db ⟨eid, p1, r1, some e⟩ t1).1
    ⟨eid, p2, r2, some e⟩ t2 e rfl hx2 hw2 hp2 hr2
  have hal2eq : siren_allowed
      (marker_last_created_at (process_op db ⟨eid, p1, r1, some e⟩ t1).1
        (OpView.mk eid p2 r2 (some e)).external_id .siren) t2 ↔ t2 - t1 ≥ 300 := by
    show siren_allowed
      (marker_last_created_at (process_op db ⟨eid, p1, r1, some e⟩ t1).1 eid .siren) t2
        ↔ t2 - t1 ≥ 300
    rw [hm1']
    simp [siren_allowed]
  have hrun : run_ticks db [(t1, ⟨eid, p1, r1, some e⟩), (t2, ⟨eid, p2, r2, some e⟩)] =
      ((process_op (process_op db ⟨eid, p1, r1, some e⟩ t1).1 ⟨eid, p2, r2, some e⟩ t2).1,
       (process_op db ⟨eid, p1, r1, some e⟩ t1).2 ++
         ((process_op (process_op db ⟨eid, p1, r1, some e⟩ t1).1 ⟨eid, p2, r2, some e⟩ t2).2
           ++ [])) := rfl
  constructor
  · intro hlt
    have hnal : ¬ siren_allowed
        (marker_last_created_at (process_op db ⟨eid, p1, r1, some e⟩ t1).1
          (OpView.mk eid p2 r2 (some e)).external_id .siren) t2 := by
      rw [hal2eq]
      omega
    obtain ⟨hc2, hm2⟩ := S2.2 hnal
    rw [hrun]
    simp only [count_kind_append, hc1, hc2]
    refine ⟨rfl, ?_⟩
    show marker_last_created_at
      (process_op (process_op db ⟨eid, p1, r1, some e⟩ t1).1 ⟨eid, p2, r2, some e⟩ t2).1
      eid .siren = some t1
    exact hm2.trans hm1'
  · intro hge
    have hal : siren_allowed
        (marker_last_created_at (process_op db ⟨eid, p1, r1, some e⟩ t1).1
          (OpView.mk eid p2 r2 (some e)).external_id .siren) t2 := by
      rw [hal2eq]
      omega
    obtain ⟨hc2, hm2⟩ := S2.1 hal
    rw [hrun]
    simp only [count_kind_append, hc1, hc2]
    exact ⟨rfl, hm2⟩

/-- C2, witness: a listing ending at `e = 3600`, profit £60, roi 50 %,
evaluated at `t = 0` and `t = 100` (gap < 5 min) sends exactly one siren and
keeps timestamp 0; evaluated at `t = 0` and `t = 400` (gap ≥ 5 min) sends
two and refreshes the timestamp to 400. -/
theorem c2_siren_cooldown_witness :
    (count_kind .siren
        (run_ticks []
          [(0, ⟨"s", 60, 1 / 2, some 3600⟩), (100, ⟨"s", 60, 1 / 2, some 3600⟩)]).2 = 1 ∧
      marker_last_created_at
        (run_ticks []
          [(0, ⟨"s", 60, 1 / 2, some 3600⟩), (100, ⟨"s", 60, 1 / 2, some 3600⟩)]).1
        "s" .siren = some 0) ∧
    (count_kind .siren
        (run_ticks []
          [(0, ⟨"s", 60, 1 / 2, some 3600⟩), (400, ⟨"s", 60, 1 / 2, some 3600⟩)]).2 = 2 ∧
      marker_last_created_at
        (run_ticks []
          [(0, ⟨"s", 60, 1 / 2, some 3600⟩), (400, ⟨"s", 60, 1 / 2, some 3600⟩)]).1
        "s" .siren = some 400) := by
  constructor
  · exact (c2_siren_cooldown [] "s" 60 (1 / 2) 60 (1 / 2) 3600 0 100 rfl
      (by norm_num) (by norm_num) (by norm_num) (by norm_num)
      (by norm_num) (by norm_num) (by norm_num) (by norm_num)).1 (by norm_num)
  · exact (c2_siren_cooldown [] "s" 60 (1 / 2) 60 (1 / 2) 3600 0 400 rfl
      (by norm_num) (by norm_num) (by norm_num) (by norm_num)
      (by norm_num) (by norm_num) (by norm_num) (by norm_num)).2 (by norm_num)

/-! ## String lemmas for the valuation matcher (C4) -/

theorem dropWhile_eq_self_of_all (p : Char → Bool) (l : Str)
    (h : ∀ c ∈ l, p c = false) : l.dropWhile p = l := by
  cases l with
  | nil => rfl
  | cons a as => simp [List.dropWhile_cons, h a (List.mem_cons_self a as)]

theorem strip_eq_self (s : Str) (h : ∀ c ∈ s, c.isWhitespace = false) :
    strip s = s := by
  unfold strip
  rw [dropWhile_eq_self_of_all _ s h]
  rw [dropWhile_eq_self_of_all _ s.reverse fun c hc => h c (List.mem_reverse.mp hc)]
  exact List.reverse_reverse s

/-- The source's `_split_model_key_grade` on a whitespace-free `base ++ "_" ++ g` with a
single-character grade suffix in `GRADE_WEIGHTS` splits at that last
underscore. -/
theorem split_model_key_grade_append (base : Str) (ch : Char)
    (hb : ∀ c ∈ base, c.isWhitespace = false)
    (hch_ws : ch.isWhitespace = false) (hch_us : ch ≠ '_')
    (hgr : (grade_weight [ch]).isSome = true) :
    split_model_key_grade (base ++ '_' :: [ch]) = (base, some [ch]) := by
  have hsne : base ++ '_' :: [ch] ≠ [] := by simp
  have hstrip : strip (base ++ '_' :: [ch]) = base ++ '_' :: [ch] := by
    apply strip_eq_self
    intro c hc
    rcases List.mem_append.mp hc with h | h
    · exact hb c h
    · rcases List.mem_cons.mp h with h' | h'
      · subst h'
        decide
      · simp only [List.mem_singleton] at h'
        subst h'
        exact hch_ws
  have hmem : '_' ∈ base ++ '_' :: [ch] :=
    List.mem_append.mpr (Or.inr (List.mem_cons_self _ _))
  have hrev : (base ++ '_' :: [ch]).reverse = ch :: '_' :: base.reverse := by
    simp
  have htw : (ch :: '_' :: base.reverse).takeWhile (fun c => decide (c ≠ '_')) = [ch] := by
    simp [List.takeWhile_cons, hch_us]
  have hstrip_ch : strip [ch] = [ch] := by
    apply strip_eq_self
    intro c hc
    simp only [List.mem_singleton] at hc
    subst hc
    exact hch_ws
  simp only [split_model_key_grade, if_neg hsne, hstrip, if_pos hmem, hrev, htw,
    List.length_singleton, List.reverse_cons, List.drop_succ_cons, List.drop_zero,
    List.reverse_reverse]
  simp only [List.reverse_nil, List.nil_append]
  rw [hstrip_ch, if_pos hgr]

/-- The fallback loop returns the first grade (in priority order) whose
alternate key differs from the listing's key and has a comp. -/
theorem find_alt_comp_first (base model_key : Str) (comps : List (Str × Comp))
    (g2 : Str) (c : Comp) (pre post : List Str)
    (hne : base ++ '_' :: g2 ≠ model_key)
    (hhit : comps_lookup comps (base ++ '_' :: g2) = some c)
    (hpre : ∀ g ∈ pre, base ++ '_' :: g = model_key ∨
      comps_lookup comps (base ++ '_' :: g) = none) :
    find_alt_comp base model_key comps (pre ++ g2 :: post) =
      some (base ++ '_' :: g2, c) := by
  induction pre with
  | nil =>
    show find_alt_comp base model_key comps (g2 :: post) = _
    unfold find_alt_comp
    rw [if_neg hne, hhit]
  | cons g gs ih =>
    have htail := ih fun g' hg' => hpre g' (List.mem_cons_of_mem g hg')
    rcases hpre g (List.mem_cons_self g gs) with h | h
    · show find_alt_comp base model_key comps (g :: (gs ++ g2 :: post)) = _
      unfold find_alt_comp
      rw [if_pos h]
      exact htail
    · show find_alt_comp base model_key comps (g :: (gs ++ g2 :: post)) = _
      unfold find_alt_comp
      by_cases hk : base ++ '_' :: g = model_key
      · rw [if_pos hk]
        exact htail
      · rw [if_neg hk, h]
        exact htail

/-- Every entry of the grade priority order is a single, non-whitespace,
non-underscore character carrying a weight. -/
theorem grade_char_facts (g : Str) (hg : g ∈ grade_search_order) :
    ∃ ch, g = [ch] ∧ ch.isWhitespace = false ∧ ch ≠ '_' ∧
      (grade_weight g).isSome = true := by
  fin_cases hg
  · exact ⟨'A', rfl, by decide, by decide, by decide⟩
  · exact ⟨'B', rfl, by decide, by decide, by decide⟩
  · exact ⟨'C', rfl, by decide, by decide, by decide⟩
  · exact ⟨'D', rfl, by decide, by decide, by decide⟩
  · exact ⟨'b', rfl, by decide, by decide, by decide⟩

/-! ## C4 — grade-adjusted comp fallback -/

/-- C4: (i) for a whitespace-free key `base_g1` (non-empty base, valid grade
`g1`) with no exact comp, where `g2` is the first grade in the priority
order `A,B,C,D,b` different from `g1` whose `base_g2` has a comp `c`, the
matcher returns `c` rescaled by `weight(g1)/weight(g2)` when `c`'s median is
positive and `(None, None)` when the median is ≤ 0; (ii) in general an
exact-match comp with median ≤ 0 resolves to `(None, None)`. -/
theorem c4_grade_fallback :
    (∀ (base g1 g2 : Str) (pre post : List Str) (comps : List (Str × Comp))
        (c : Comp) (w1 w2 : ℚ),
        base ≠ [] →
        (∀ ch ∈ base, ch.isWhitespace = false) →
        g1 ∈ grade_search_order →
        grade_search_order = pre ++ g2 :: post →
        g2 ≠ g1 →
        grade_weight g1 = some w1 →
        grade_weight g2 = some w2 →
        comps_lookup comps (base ++ '_' :: g1) = none →
        comps_lookup comps (base ++ '_' :: g2) = some c →
        (∀ g ∈ pre, g ≠ g1 → comps_lookup comps (base ++ '_' :: g) = none) →
        get_comp_with_grade_adjustment (base ++ '_' :: g1) comps =
          (if 0 < c.median_final_price then
            some (c, c.median_final_price * (w1 / w2))
          else none)) ∧
    (∀ (key : Str) (comps : List (Str × Comp)) (c : Comp),
        comps_lookup comps key = some c → c.median_final_price ≤ 0 →
        get_comp_with_grade_adjustment key comps = none) := by
  constructor
  · intro base g1 g2 pre post comps c w1 w2 hbase hbw hg1 horder hne hw1 hw2 hmiss hhit
      hpre
    have hg2 : g2 ∈ grade_search_order := by
      rw [horder]
      exact List.mem_append.mpr (Or.inr (List.mem_cons_self _ _))
    obtain ⟨ch1, hg1eq, hws1, hus1, hsome1⟩ := grade_char_facts g1 hg1
    obtain ⟨ch2, hg2eq, hws2, hus2, hsome2⟩ := grade_char_facts g2 hg2
    have hsplit1 : split_model_key_grade (base ++ '_' :: g1) = (base, some g1) := by
      rw [hg1eq]
      exact split_model_key_grade_append base ch1 hbw hws1 hus1 (hg1eq ▸ hsome1)
    have hsplit2 : split_model_key_grade (base ++ '_' :: g2) = (base, some g2) := by
      rw [hg2eq]
      exact split_model_key_grade_append base ch2 hbw hws2 hus2 (hg2eq ▸ hsome2)
    have hkey_ne : base ++ '_' :: g1 ≠ [] := by simp
    have hfind : find_alt_comp base (base ++ '_' :: g1) comps grade_search_order =
        some (base ++ '_' :: g2, c) := by
      rw [horder]
      apply find_alt_comp_first base _ comps g2 c pre post _ hhit
      · intro g hg
        by_cases hgg : g = g1
        · exact Or.inl (by rw [hgg])
        · exact Or.inr (hpre g hg hgg)
      · intro hc
        have : ('_' :: g2 : Str) = '_' :: g1 := List.append_cancel_left hc
        have : g2 = g1 := by injection this
        exact hne this
    unfold get_comp_with_grade_adjustment
    rw [if_neg hkey_ne]
    simp only [hsplit1, hmiss]
    rw [if_pos (by simpa using hbase)]
    rw [hfind]
    simp only [hsplit2]
    by_cases hm : c.median_final_price ≤ 0
    · rw [if_pos hm, if_neg (not_lt.mpr hm)]
    · rw [if_neg hm, if_pos (not_le.mp hm)]
      simp only [adjust_median, hw1, hw2]
  · intro key comps c h hm
    unfold get_comp_with_grade_adjustment
    by_cases hk : key = []
    · rw [if_pos hk]
    · rw [if_neg hk]
      simp only [h]
      rw [if_pos hm]

/-- C4, witness: `widget_A` absent, `widget_B` present with median 100 —
resolve returns the `widget_B` comp with adjusted median
`100 × 1.00/0.85 = 2000/17 ≈ 117.65` (within a penny of the claim's
117.65). -/
theorem c4_grade_fallback_witness :
    get_comp_with_grade_adjustment ['w', 'i', 'd', 'g', 'e', 't', '_', 'A']
        [(['w', 'i', 'd', 'g', 'e', 't', '_', 'B'], ⟨100, 5⟩)] =
      some (⟨100, 5⟩, 2000 / 17) ∧
      |(2000 / 17 : ℚ) - 11765 / 100| < 1 / 100 := by
  constructor
  · have h := c4_grade_fallback.1 ['w', 'i', 'd', 'g', 'e', 't'] ['A'] ['B']
      [['A']] [['C'], ['D'], ['b']]
      [(['w', 'i', 'd', 'g', 'e', 't', '_', 'B'], (⟨100, 5⟩ : Comp))]
      ⟨100, 5⟩ 1 (17 / 20)
      (by simp)
      (by decide)
      (by decide)
      rfl
      (by decide)
      rfl
      rfl
      rfl
      rfl
      (by
        intro g hg hgne
        simp only [List.mem_singleton] at hg
        exact absurd hg hgne)
    rw [show (['w', 'i', 'd', 'g', 'e', 't', '_', 'A'] : Str) =
      ['w', 'i', 'd', 'g', 'e', 't'] ++ ['_', 'A'] from rfl, h, if_pos (by norm_num)]
    norm_num
  · rw [show |(2000 / 17 : ℚ) - 11765 / 100| = 1 / 340 by
      rw [abs_of_neg (by norm_num)]
      norm_num]
    norm_num

/-! ## Digest-node lemmas (C7) -/

theorem alert_lookup_map_other (db : AlertsDB) (eid : String) (s m : ℚ) (now : ℤ)
    (eid' : String) (h : eid' ≠ eid) :
    alert_lookup
        (db.map fun q =>
          if q.external_id = eid then
            { q with score := s, max_bid := m, updated_at := now }
          else q) eid'
      = alert_lookup db eid' := by
  induction db with
  | nil => rfl
  | cons q rs ih =>
    by_cases hq : q.external_id = eid'
    · have hqe : ¬ q.external_id = eid := fun hc => h (hq ▸ hc)
      simp [alert_lookup, hq, hqe, h, Ne.symm h]
    · by_cases hqe : q.external_id = eid
      · simp [alert_lookup, hq, hqe, h, Ne.symm h, ih]
      · simp [alert_lookup, hq, hqe, ih]

theorem alert_lookup_append_other (db : AlertsDB) (row : AlertRow) (eid' : String)
    (h : row.external_id ≠ eid') :
    alert_lookup (db ++ [row]) eid' = alert_lookup db eid' := by
  induction db with
  | nil => simp [alert_lookup, h]
  | cons q rs ih =>
    by_cases hq : q.external_id = eid'
    · simp [alert_lookup, hq]
    · simp only [List.cons_append, alert_lookup, if_neg hq]
      exact ih

/-- The source's `record_alert` leaves the rows of every other `external_id` unchanged. -/
theorem alert_lookup_record_other (db : AlertsDB) (next_id : ℕ) (eid : String)
    (s m : ℚ) (now : ℤ) (eid' : String) (h : eid' ≠ eid) :
    alert_lookup (record_alert db next_id eid s m now).1 eid' = alert_lookup db eid' := by
  unfold record_alert
  cases hc : alert_lookup db eid with
  | some r => exact alert_lookup_map_other db eid s m now eid' h
  | none => exact alert_lookup_append_other db _ eid' fun hc' => h hc'.symm

/-- The source's `created_now` is precisely "the external_id was absent". -/
theorem record_alert_created_iff (db : AlertsDB) (next_id : ℕ) (eid : String)
    (s m : ℚ) (now : ℤ) :
    (record_alert db next_id eid s m now).2.1 = true ↔ alert_lookup db eid = none := by
  unfold record_alert
  cases hc : alert_lookup db eid with
  | some r => simp
  | none => simp

/-- The upsert loop of the digest node collects exactly the opportunities
whose `external_id` was not yet in the alerts table (for pairwise-distinct
ids). -/
theorem record_alerts_loop_candidates (now : ℤ) :
    ∀ (opps : List Opportunity) (db : AlertsDB) (next_id : ℕ),
      List.Pairwise (fun a b : Opportunity => a.external_id ≠ b.external_id) opps →
      (record_alerts_loop db next_id now opps).2.2 =
        opps.filter fun op => decide (alert_lookup db op.external_id = none) := by
  intro opps
  induction opps with
  | nil => intro db next_id hdist; rfl
  | cons op ops ih =>
    intro db next_id hdist
    obtain ⟨hhead, hdist'⟩ := List.pairwise_cons.mp hdist
    have hother : ∀ op' ∈ ops,
        alert_lookup (record_alert db next_id op.external_id op.profit
          (money (op.comps_median - op.fees - op.outbound_ship)) now).1 op'.external_id
          = alert_lookup db op'.external_id := fun op' hop' =>
      alert_lookup_record_other db next_id op.external_id _ _ now op'.external_id
        fun hcc => hhead op' hop' hcc.symm
    have hcong : ∀ nid, (record_alerts_loop (record_alert db next_id op.external_id
        op.profit (money (op.comps_median - op.fees - op.outbound_ship)) now).1 nid now
          ops).2.2
        = List.filter (fun op' => decide (alert_lookup db op'.external_id = none)) ops := by
      intro nid
      rw [ih _ nid hdist']
      exact List.filter_congr fun op' hop' => by rw [hother op' hop']
    cases hc : alert_lookup db op.external_id with
    | none =>
      have hcr : (record_alert db next_id op.external_id op.profit
          (money (op.comps_median - op.fees - op.outbound_ship)) now).2.1 = true :=
        (record_alert_created_iff db next_id op.external_id _ _ now).mpr hc
      unfold record_alerts_loop
      dsimp only
      rw [hcr]
      simp [hcong, List.filter_cons, hc]
    | some r =>
      have hcr : (record_alert db next_id op.external_id op.profit
          (money (op.comps_median - op.fees - op.outbound_ship)) now).2.1 = false := by
        unfold record_alert
        rw [hc]
      unfold record_alerts_loop
      dsimp only
      rw [hcr]
      simp [hcong, List.filter_cons, hc]

/-! ## C7 — digest gating -/

/-- C7, counterexample: one shortlist survivor with a *future* end time,
an empty alerts table (so its upsert is a first-time insert and the digest
candidate set is non-empty) and no prior send (so the cooldown allows
sending): the node emails nothing, because it first filters the candidates
to those whose `end_time` is already in the past. -/
theorem c7_counterexample :
    (node_record_alerts_and_email
        [⟨"s", "e7", some ['k'], 5, 200, 100, 7, 26, 67, 67 / 100, some 9999, some 9999⟩]
        [] 1 none 0).candidates =
      [⟨"s", "e7", some ['k'], 5, 200, 100, 7, 26, 67, 67 / 100, some 9999, some 9999⟩] ∧
      email_cooldown_ok none 0 ∧
      (node_record_alerts_and_email
        [⟨"s", "e7", some ['k'], 5, 200, 100, 7, 26, 67, 67 / 100, some 9999, some 9999⟩]
        [] 1 none 0).emailed = none := by
  refine ⟨?_, by simp [email_cooldown_ok], ?_⟩ <;>
    norm_num [node_record_alerts_and_email, record_alerts_loop, record_alert,
      alert_lookup, money, round_half_up, end_time_past, List.filter_cons,
      email_cooldown_ok]

/-- C7, amended: every surviving opportunity attempts an Alert upsert and
(for pairwise-distinct ids) the first-time inserts form the candidate set;
the node then keeps only candidates whose `end_time` is already *past*;
whenever that filtered set is non-empty and the time since the last
recorded send is at least the 30-minute cooldown (or no prior send exists),
an HTML summary of the filtered set capped at 20 items is emailed and the
watermark advanced to `now`; within the cooldown — or when the filtered set
is empty, in particular whenever all candidates are still live — nothing is
sent and the watermark stays. -/
theorem c7_amended (opps : List Opportunity) (db : AlertsDB) (next_id : ℕ)
    (last_sent : Option ℤ) (now : ℤ)
    (hdist : List.Pairwise (fun a b : Opportunity => a.external_id ≠ b.external_id) opps) :
    (node_record_alerts_and_email opps db next_id last_sent now).candidates =
        opps.filter (fun op => decide (alert_lookup db op.external_id = none)) ∧
      (((node_record_alerts_and_email opps db next_id last_sent now).candidates.filter
            fun op => decide (end_time_past op now)) ≠ [] →
          email_cooldown_ok last_sent now →
          (node_record_alerts_and_email opps db next_id last_sent now).emailed =
              some (((node_record_alerts_and_email opps db next_id last_sent
                now).candidates.filter fun op => decide (end_time_past op now)).take 20) ∧
            (node_record_alerts_and_email opps db next_id last_sent now).last_sent_at =
              some now) ∧
      (((node_record_alerts_and_email opps db next_id last_sent now).candidates.filter
            fun op => decide (end_time_past op now)) ≠ [] →
          ¬ email_cooldown_ok last_sent now →
          (node_record_alerts_and_email opps db next_id last_sent now).emailed = none ∧
            (node_record_alerts_and_email opps db next_id last_sent now).last_sent_at =
              last_sent) ∧
      (((node_record_alerts_and_email opps db next_id last_sent now).candidates.filter
            fun op => decide (end_time_past op now)) = [] →
          (node_record_alerts_and_email opps db next_id last_sent now).emailed = none ∧
            (node_record_alerts_and_email opps db next_id last_sent now).last_sent_at =
              last_sent) := by
  by_cases hopps : opps = []
  · subst hopps
    refine ⟨rfl, ?_, ?_, fun _ => ⟨rfl, rfl⟩⟩ <;>
      · intro hne
        simp [node_record_alerts_and_email] at hne
  · have hcand := record_alerts_loop_candidates now opps db next_id hdist
    have hnode : node_record_alerts_and_email opps db next_id last_sent now =
        (let loop := record_alerts_loop db next_id now opps
        let newly := loop.2.2
        if newly = [] then ⟨loop.1, newly, none, last_sent⟩
        else
          let past := newly.filter fun op => decide (end_time_past op now)
          if past = [] then ⟨loop.1, newly, none, last_sent⟩
          else if email_cooldown_ok last_sent now then
            ⟨loop.1, newly, some (past.take 20), some now⟩
          else ⟨loop.1, newly, none, last_sent⟩) := by
      unfold node_record_alerts_and_email
      rw [if_neg hopps]
    rw [hnode]
    dsimp only
    by_cases hnew : (record_alerts_loop db next_id now opps).2.2 = []
    · rw [if_pos hnew]
      dsimp only
      refine ⟨hcand, ?_, ?_, fun _ => ⟨rfl, rfl⟩⟩ <;>
        · intro hne
          rw [hnew] at hne
          simp at hne
    · rw [if_neg hnew]
      by_cases hpast :
          ((record_alerts_loop db next_id now opps).2.2.filter
            fun op => decide (end_time_past op now)) = []
      · rw [if_pos hpast]
        dsimp only
        exact ⟨hcand, fun hne _ => absurd hpast hne, fun hne _ => absurd hpast hne,
          fun _ => ⟨rfl, rfl⟩⟩
      · rw [if_neg hpast]
        by_cases hcd : email_cooldown_ok last_sent now
        · rw [if_pos hcd]
          dsimp only
          exact ⟨hcand, fun _ _ => ⟨rfl, rfl⟩, fun _ hncd => absurd hcd hncd,
            fun hp => absurd hp hpast⟩
        · rw [if_neg hcd]
          dsimp only
          exact ⟨hcand, fun _ hcd' => absurd hcd' hcd, fun _ _ => ⟨rfl, rfl⟩,
            fun hp => absurd hp hpast⟩

/-- C7, witness for the amended theorem: a single candidate whose end time
is already past, empty alerts table, no prior send — the digest goes out
with that one item and the watermark advances. -/
theorem c7_amended_witness :
    (node_record_alerts_and_email
        [⟨"s", "e7", some ['k'], 5, 200, 100, 7, 26, 67, 67 / 100, some (-10), some 0⟩]
        [] 1 none 0).emailed =
      some [⟨"s", "e7", some ['k'], 5, 200, 100, 7, 26, 67, 67 / 100, some (-10), some 0⟩] ∧
      (node_record_alerts_and_email
        [⟨"s", "e7", some ['k'], 5, 200, 100, 7, 26, 67, 67 / 100, some (-10), some 0⟩]
        [] 1 none 0).last_sent_at = some 0 := by
  have h := (c7_amended
    [⟨"s", "e7", some ['k'], 5, 200, 100, 7, 26, 67, 67 / 100, some (-10), some 0⟩]
    [] 1 none 0 (by simp)).2.1
  have hc := (c7_amended
    [⟨"s", "e7", some ['k'], 5, 200, 100, 7, 26, 67, 67 / 100, some (-10), some 0⟩]
    [] 1 none 0 (by simp)).1
  rw [hc] at h
  have hfilter :
      (List.filter (fun op => decide (alert_lookup [] op.external_id = none))
          [⟨"s", "e7", some ['k'], 5, 200, 100, 7, 26, 67, 67 / 100, some (-10), some 0⟩]
        |>.filter fun op => decide (end_time_past op (0 : ℤ))) =
        [⟨"s", "e7", some ['k'], 5, 200, 100, 7, 26, 67, 67 / 100, some (-10), some 0⟩] := by
    norm_num [alert_lookup, end_time_past, List.filter_cons]
  rw [hfilter] at h
  have hout := h (by simp) (by simp [email_cooldown_ok])
  simpa using hout

/-! ## Listing persistence lemmas (C8) -/

theorem listing_lookup_self :
    ∀ (listings : List ListingRow) (L : ListingRow), L ∈ listings →
      List.Pairwise (fun a b : ListingRow => a.external_id ≠ b.external_id) listings →
      listing_lookup listings L.external_id = some L := by
  intro listings
  induction listings with
  | nil => intro L hL _; simp at hL
  | cons l0 rest ih =>
    intro L hL hdist
    obtain ⟨hhead, hdist'⟩ := List.pairwise_cons.mp hdist
    rcases List.mem_cons.mp hL with h | h
    · subst h
      simp [listing_lookup]
    · have hne : l0.external_id ≠ L.external_id := hhead L h
      simp only [listing_lookup, if_neg hne]
      exact ih L h hdist'

theorem listing_lookup_apply_update (roi_v mb_v : ℚ) (ueid eid : String) :
    ∀ (listings : List ListingRow) (r : ListingRow),
      listing_lookup listings eid = some r →
      listing_lookup (apply_roi_update listings roi_v mb_v ueid) eid =
        some (if r.external_id = ueid then
          { r with roi_estimate := some roi_v, max_bid := some mb_v }
        else r) := by
  intro listings
  induction listings with
  | nil => intro r hr; simp [listing_lookup] at hr
  | cons l0 rest ih =>
    intro r hr
    by_cases h0 : l0.external_id = eid
    · simp only [listing_lookup, if_pos h0, Option.some.injEq] at hr
      subst hr
      by_cases hu : l0.external_id = ueid
      · have heu : eid = ueid := h0.symm.trans hu
        simp [apply_roi_update, listing_lookup, h0, hu, heu]
      · have heu : ¬ eid = ueid := fun hc => hu (h0.trans hc)
        simp [apply_roi_update, listing_lookup, h0, hu, heu]
    · simp only [listing_lookup, if_neg h0] at hr
      have hrec := ih r hr
      have hhead : (if l0.external_id = ueid then
          { l0 with roi_estimate := some roi_v, max_bid := some mb_v } else l0).external_id
          = l0.external_id := by
        by_cases hu : l0.external_id = ueid <;> simp [hu]
      show listing_lookup
          ((if l0.external_id = ueid then
            { l0 with roi_estimate := some roi_v, max_bid := some mb_v } else l0) ::
            apply_roi_update rest roi_v mb_v ueid) eid = _
      simp only [listing_lookup, hhead, if_neg h0]
      exact hrec

/-- The source's `_update_roi_estimates` commutes with lookup: the row for `eid` is the
original row folded through the update rows in order. -/
theorem listing_lookup_update_roi :
    ∀ (ops : List Opportunity) (listings : List ListingRow) (eid : String)
      (row : ListingRow),
      listing_lookup listings eid = some row →
      listing_lookup (update_roi_estimates listings ops) eid =
        some (ops.foldl roi_update_fold row) := by
  intro ops
  induction ops with
  | nil => intro listings eid row hrow; exact hrow
  | cons op ops ih =>
    intro listings eid row hrow
    have hstep := listing_lookup_apply_update op.roi
      (money (op.comps_median * (8 / 10))) op.external_id eid listings row hrow
    show listing_lookup
        (update_roi_estimates
          (apply_roi_update listings op.roi (money (op.comps_median * (8 / 10)))
            op.external_id) ops) eid = _
    rw [ih _ eid _ hstep]
    rfl

theorem foldl_roi_update_no_match :
    ∀ (ops : List Opportunity) (row : ListingRow),
      (∀ op ∈ ops, op.external_id ≠ row.external_id) →
      ops.foldl roi_update_fold row = row := by
  intro ops
  induction ops with
  | nil => intro row _; rfl
  | cons op ops ih =>
    intro row h
    have hne : row.external_id ≠ op.external_id :=
      fun hc => h op (List.mem_cons_self op ops) hc.symm
    show ops.foldl roi_update_fold (roi_update_fold row op) = row
    rw [show roi_update_fold row op = row from if_neg hne]
    exact ih row fun op' hop' => h op' (List.mem_cons_of_mem op hop')

/-- The one-step equation of `_build_all_opps_for_roi`. -/
theorem build_all_opps_cons (li : ListingRow) (rest : List ListingRow)
    (comps : List (Str × Comp)) :
    build_all_opps_for_roi (li :: rest) comps =
      (if is_investible_model_key li.model_key then
        match li.model_key with
        | none => build_all_opps_for_roi rest comps
        | some mk =>
          match get_comp_with_grade_adjustment mk comps with
          | none => build_all_opps_for_roi rest comps
          | some cm =>
            if cm.1.samples < 3 ∨ cm.2 ≤ 0 then build_all_opps_for_roi rest comps
            else
              make_opportunity li.source li.external_id li.model_key li.price_current
                li.end_time li.time_left_s cm.1.samples cm.2 ::
                build_all_opps_for_roi rest comps
      else build_all_opps_for_roi rest comps) := rfl

/-- Every opportunity built by `_build_all_opps_for_roi` carries the
external_id of one of the input listings. -/
theorem build_opp_eid (comps : List (Str × Comp)) :
    ∀ (listings : List ListingRow) (op : Opportunity),
      op ∈ build_all_opps_for_roi listings comps →
      ∃ li ∈ listings, op.external_id = li.external_id := by
  intro listings
  induction listings with
  | nil => intro op h; simp [build_all_opps_for_roi] at h
  | cons li rest ih =>
    intro op h
    rw [build_all_opps_cons] at h
    have htail : op ∈ build_all_opps_for_roi rest comps →
        ∃ li' ∈ li :: rest, op.external_id = li'.external_id := by
      intro hmem
      obtain ⟨li', hli', heq⟩ := ih op hmem
      exact ⟨li', List.mem_cons_of_mem li hli', heq⟩
    split at h
    · split at h
      · exact htail h
      · split at h
        · exact htail h
        · split at h
          · exact htail h
          · rcases List.mem_cons.mp h with hop | hop
            · subst hop
              exact ⟨li, List.mem_cons_self li rest, rfl⟩
            · exact htail hop
    · exact htail h

/-- One step of `_build_all_opps_for_roi`: the head listing contributes
either nothing or exactly one opportunity built from it. -/
theorem build_cons (li : ListingRow) (rest : List ListingRow)
    (comps : List (Str × Comp)) :
    build_all_opps_for_roi (li :: rest) comps = build_all_opps_for_roi rest comps ∨
    ∃ samples adj,
      build_all_opps_for_roi (li :: rest) comps =
        make_opportunity li.source li.external_id li.model_key li.price_current
          li.end_time li.time_left_s samples adj :: build_all_opps_for_roi rest comps := by
  rw [build_all_opps_cons]
  split
  · split
    · exact Or.inl rfl
    · split
      · exact Or.inl rfl
      · split
        · exact Or.inl rfl
        · exact Or.inr ⟨_, _, rfl⟩
  · exact Or.inl rfl

/-- A listing passing all of `_build_all_opps_for_roi`'s filters contributes
its opportunity at the head. -/
theorem build_cons_pass (li : ListingRow) (rest : List ListingRow)
    (comps : List (Str × Comp)) (mk : Str) (c : Comp) (adj : ℚ)
    (hinv : is_investible_model_key li.model_key)
    (hmk : li.model_key = some mk)
    (hres : get_comp_with_grade_adjustment mk comps = some (c, adj))
    (hok : ¬(c.samples < 3 ∨ adj ≤ 0)) :
    build_all_opps_for_roi (li :: rest) comps =
      make_opportunity li.source li.external_id li.model_key li.price_current
        li.end_time li.time_left_s c.samples adj :: build_all_opps_for_roi rest comps := by
  rw [build_all_opps_cons, if_pos hinv, hmk]
  dsimp only
  rw [hres]
  dsimp only
  rw [if_neg hok]

/-- Folding the tick's update rows over a listing that passes all filters
rewrites exactly its `roi_estimate`/`max_bid` (pairwise-distinct ids). -/
theorem build_fold_updates (comps : List (Str × Comp)) :
    ∀ (listings : List ListingRow) (L : ListingRow) (mk : Str) (c : Comp) (adj : ℚ),
      L ∈ listings →
      List.Pairwise (fun a b : ListingRow => a.external_id ≠ b.external_id) listings →
      is_investible_model_key L.model_key →
      L.model_key = some mk →
      get_comp_with_grade_adjustment mk comps = some (c, adj) →
      ¬(c.samples < 3 ∨ adj ≤ 0) →
      (build_all_opps_for_roi listings comps).foldl roi_update_fold L =
        { L with
          roi_estimate := some (estimate_profit L.price_current adj (13 / 100) 7 0).2.2,
          max_bid := some (money (money adj * (8 / 10))) } := by
  intro listings
  induction listings with
  | nil => intro L mk c adj hL; simp at hL
  | cons li rest ih =>
    intro L mk c adj hL hdist hinv hmk hres hok
    obtain ⟨hhead, hdist'⟩ := List.pairwise_cons.mp hdist
    rcases List.mem_cons.mp hL with hLl | hLr
    · subst hLl
      rw [build_cons_pass L rest comps mk c adj hinv hmk hres hok]
      show (build_all_opps_for_roi rest comps).foldl roi_update_fold
          (roi_update_fold L (make_opportunity L.source L.external_id L.model_key
            L.price_current L.end_time L.time_left_s c.samples adj)) = _
      have hstep : roi_update_fold L (make_opportunity L.source L.external_id L.model_key
          L.price_current L.end_time L.time_left_s c.samples adj) =
          { L with
            roi_estimate := some (estimate_profit L.price_current adj (13 / 100) 7 0).2.2,
            max_bid := some (money (money adj * (8 / 10))) } := by
        unfold roi_update_fold
        rw [if_pos (show L.external_id = (make_opportunity L.source L.external_id
          L.model_key L.price_current L.end_time L.time_left_s c.samples
            adj).external_id from rfl)]
        rfl
      rw [hstep]
      apply foldl_roi_update_no_match
      intro op hop
      obtain ⟨li', hli', heq⟩ := build_opp_eid comps rest op hop
      rw [heq]
      show li'.external_id ≠ L.external_id
      exact fun hc => hhead li' hli' hc.symm
    · have hne : li.external_id ≠ L.external_id := hhead L hLr
      rcases build_cons li rest comps with hb | ⟨s, a, hb⟩
      · rw [hb]
        exact ih L mk c adj hLr hdist' hinv hmk hres hok
      · rw [hb]
        show (build_all_opps_for_roi rest comps).foldl roi_update_fold
            (roi_update_fold L (make_opportunity li.source li.external_id li.model_key
              li.price_current li.end_time li.time_left_s s a)) = _
        rw [show roi_update_fold L (make_opportunity li.source li.external_id li.model_key
            li.price_current li.end_time li.time_left_s s a) = L from
          if_neg fun hc => hne hc.symm]
        exact ih L mk c adj hLr hdist' hinv hmk hres hok

/-! ## C8 — roi_estimate/max_bid persistence -/

/-- C8, counterexample: a listing with an investible model_key and a
*resolvable* comp (`widget` exact match, median 100) whose sample count is
only 2 is dropped by `_build_all_opps_for_roi`'s `samples < 3` filter, so
the tick persists no `roi_estimate`/`max_bid` for it — the row is returned
unchanged with both still `NULL`. -/
theorem c8_counterexample :
    get_comp_with_grade_adjustment ['k'] [(['k'], ⟨100, 2⟩)] = some (⟨100, 2⟩, 100) ∧
      is_investible_model_key (some ['k']) ∧
      persist_roi_estimates
          [⟨"e8", "s", some ['k'], 10, some 1000, some 1000, none, none⟩]
          [(['k'], ⟨100, 2⟩)] =
        [⟨"e8", "s", some ['k'], 10, some 1000, some 1000, none, none⟩] := by
  have hres : get_comp_with_grade_adjustment ['k'] [(['k'], ⟨100, 2⟩)] =
      some (⟨100, 2⟩, 100) := by
    simp [get_comp_with_grade_adjustment, split_model_key_grade, strip, comps_lookup]
    norm_num [adjust_median]
  refine ⟨hres, by decide, ?_⟩
  show update_roi_estimates _ (build_all_opps_for_roi _ _) = _
  rw [show build_all_opps_for_roi
      [⟨"e8", "s", some ['k'], 10, some 1000, some 1000, none, none⟩]
      [(['k'], ⟨100, 2⟩)] = [] from ?_]
  · rfl
  · rw [build_all_opps_cons, if_pos (by decide)]
    dsimp only
    rw [hres]
    dsimp only
    rw [if_pos (Or.inl (by norm_num))]
    rfl

/-- C8, amended: on a tick, every active listing with an investible
model_key and a resolvable comp *with at least 3 samples* (and positive
adjusted median) gets `roi_estimate` (that tick's computed roi) and
`max_bid` (`_money(0.8 × rounded median)`, the fallback since
`engine.core.scoring.snipe` is absent from the repository) persisted back to
its row, independent of the shortlist profit/roi minimums; all other fields
of the row are untouched. -/
theorem c8_amended (listings : List ListingRow) (comps : List (Str × Comp))
    (L : ListingRow) (mk : Str) (c : Comp) (adj : ℚ)
    (hL : L ∈ listings)
    (hdist : List.Pairwise (fun a b : ListingRow => a.external_id ≠ b.external_id) listings)
    (hinv : is_investible_model_key L.model_key)
    (hmk : L.model_key = some mk)
    (hres : get_comp_with_grade_adjustment mk comps = some (c, adj))
    (hsamp : 3 ≤ c.samples) (hadj : 0 < adj) :
    listing_lookup (persist_roi_estimates listings comps) L.external_id =
      some { L with
        roi_estimate := some (estimate_profit L.price_current adj (13 / 100) 7 0).2.2,
        max_bid := some (money (money adj * (8 / 10))) } := by
  have hok : ¬(c.samples < 3 ∨ adj ≤ 0) := by
    push_neg
    exact ⟨hsamp, hadj⟩
  have hrow := listing_lookup_self listings L hL hdist
  show listing_lookup
      (update_roi_estimates listings (build_all_opps_for_roi listings comps))
      L.external_id = _
  rw [listing_lookup_update_roi (build_all_opps_for_roi listings comps) listings
    L.external_id L hrow]
  rw [build_fold_updates comps listings L mk c adj hL hdist hinv hmk hres hok]

/-- C8, witness for the amended theorem: price 10 against a resolved median
of 100 with 5 samples persists `roi_estimate = 7.0` (profit 70 over cost 10)
and `max_bid = 80.00` (`0.8 × 100`), leaving the other fields unchanged. -/
theorem c8_amended_witness :
    listing_lookup
        (persist_roi_estimates
          [⟨"e9", "s", some ['k'], 10, some 1000, some 1000, none, none⟩]
          [(['k'], ⟨100, 5⟩)]) "e9" =
      some ⟨"e9", "s", some ['k'], 10, some 1000, some 1000, some 7, some 80⟩ := by
  have hres : get_comp_with_grade_adjustment ['k'] [(['k'], ⟨100, 5⟩)] =
      some (⟨100, 5⟩, 100) := by
    simp [get_comp_with_grade_adjustment, split_model_key_grade, strip, comps_lookup]
    norm_num [adjust_median]
  have h := c8_amended
    [⟨"e9", "s", some ['k'], 10, some 1000, some 1000, none, none⟩]
    [(['k'], ⟨100, 5⟩)]
    ⟨"e9", "s", some ['k'], 10, some 1000, some 1000, none, none⟩
    ['k'] ⟨100, 5⟩ 100
    (by simp) (by simp) (by decide) rfl hres (by norm_num) (by norm_num)
  have h2 : (⟨"e9", "s", some ['k'], 10, some 1000, some 1000, none, none⟩ :
      ListingRow).external_id = "e9" := rfl
  rw [h2] at h
  rw [h]
  norm_num [estimate_profit, money, round_half_up]
